import Mathlib

/-!
Shallow embedding of the jobber-connect backend (src/jobber_auth.py).

Strings are modelled as lists of Unicode code points (`List Nat`); byte
strings as lists of byte values (`List Nat`, each < 256).  The state codec
(`encode_state` / `decode_state`), the `/jobber/start` initiator
(`jobber_start`), the OAuth callback handler (`jobber_callback`) and the
sink forwarder (`store_jobber_tokens_for_client`) are translated from the
source; outbound HTTP calls (token endpoint, sink webhook, phone lookup)
are modelled as oracle parameters, and the handler additionally returns a
trace of the outbound calls it performs.
-/

/-- Code points of a Lean string literal; used to write concrete character
and byte lists in a readable way. -/
def cp (s : String) : List Nat := s.data.map Char.toNat

/-- JSON values as produced by Python's json module: integer literals
become `int`, fractional or exponent literals become `float` (the matched
literal text is kept uninterpreted, since no code under verification
inspects float values), objects keep their members in parse order. -/
inductive JVal where
  | null : JVal
  | bool (b : Bool) : JVal
  | int (n : Int) : JVal
  | float (raw : List Nat) : JVal
  | str (s : List Nat) : JVal
  | arr (elems : List JVal) : JVal
  | obj (members : List (List Nat × JVal)) : JVal

/-! ### URL-safe base64 (base64.urlsafe_b64encode / urlsafe_b64decode) -/

/-- Value of one base64 character.  `urlsafe_b64decode` first translates
the URL-safe characters to the standard alphabet and then decodes, so both
alphabets are accepted. -/
def b64DigitVal (c : Nat) : Option Nat :=
  if 65 ≤ c ∧ c ≤ 90 then some (c - 65)
  else if 97 ≤ c ∧ c ≤ 122 then some (c - 71)
  else if 48 ≤ c ∧ c ≤ 57 then some (c + 4)
  else if c = 43 ∨ c = 45 then some 62
  else if c = 47 ∨ c = 95 then some 63
  else none

/-- URL-safe base64 alphabet character for a 6-bit value. -/
def b64EncDigit (d : Nat) : Nat :=
  if d < 26 then 65 + d
  else if d < 52 then 71 + d
  else if d < 62 then d - 4
  else if d = 62 then 45
  else 95

/-- base64.urlsafe_b64encode on a byte string. -/
def b64Encode : List Nat → List Nat
  | [] => []
  | [a] => [b64EncDigit (a / 4), b64EncDigit (a % 4 * 16), 61, 61]
  | [a, b] => [b64EncDigit (a / 4), b64EncDigit (a % 4 * 16 + b / 16), b64EncDigit (b % 16 * 4), 61]
  | a :: b :: c :: rest =>
      b64EncDigit (a / 4) :: b64EncDigit (a % 4 * 16 + b / 16) ::
      b64EncDigit (b % 16 * 4 + c / 64) :: b64EncDigit (c % 64) :: b64Encode rest

/-- Bytes of a full group of four 6-bit values. -/
def b64Group4 (d1 d2 d3 d4 : Nat) : List Nat :=
  [d1 * 4 + d2 / 16, d2 % 16 * 16 + d3 / 4, d3 % 4 * 64 + d4]

/-- Bytes of a partial final group (two or three data characters before
padding); a group of fewer than two data characters cannot be flushed. -/
def b64Flush : List Nat → Option (List Nat)
  | [d1, d2] => some [d1 * 4 + d2 / 16]
  | [d1, d2, d3] => some [d1 * 4 + d2 / 16, d2 % 16 * 16 + d3 / 4]
  | _ => none

/-- Scanner of CPython's lenient a2b_base64 (the mode base64.b64decode
uses): characters outside the alphabet are skipped; a data character
resets the padding counter and extends the current group, emitting three
bytes when the group completes; a padding character increments the
padding counter and terminates the decode (remaining input ignored) once
the group holds two data characters and group plus padding reach four;
leftover data characters at end of input are an error (the Incorrect
padding / data-characters errors of binascii). -/
def b64ScanL (group : List Nat) (pads : Nat) : List Nat → Option (List Nat)
  | [] => match group with
      | [] => some []
      | _ => none
  | c :: rest =>
      if c = 61 then
        if 2 ≤ group.length ∧ 4 ≤ group.length + (pads + 1) then b64Flush group
        else b64ScanL group (pads + 1) rest
      else
        match b64DigitVal c with
        | none => b64ScanL group pads rest
        | some d =>
            match group with
            | [d1, d2, d3] => (b64ScanL [] 0 rest).map (fun bs => b64Group4 d1 d2 d3 d ++ bs)
            | g => b64ScanL (g ++ [d]) 0 rest

/-- base64.urlsafe_b64decode on a byte string, returning `none` where the
Python call raises binascii.Error. -/
def urlsafeB64Decode (l : List Nat) : Option (List Nat) := b64ScanL [] 0 l

/-! ### UTF-8 (str.encode / bytes.decode with strict errors) -/

/-- UTF-8 bytes of one code point; `none` on surrogates or out-of-range
values, where Python's str.encode("utf-8") raises UnicodeEncodeError. -/
def utf8EncodeChar (c : Nat) : Option (List Nat) :=
  if c < 128 then some [c]
  else if c < 2048 then some [192 + c / 64, 128 + c % 64]
  else if c < 65536 then
    if 55296 ≤ c ∧ c < 57344 then none
    else some [224 + c / 4096, 128 + c / 64 % 64, 128 + c % 64]
  else if c < 1114112 then
    some [240 + c / 262144, 128 + c / 4096 % 64, 128 + c / 64 % 64, 128 + c % 64]
  else none

/-- str.encode("utf-8"). -/
def utf8Encode : List Nat → Option (List Nat)
  | [] => some []
  | c :: rest =>
      match utf8EncodeChar c, utf8Encode rest with
      | some bs, some r => some (bs ++ r)
      | _, _ => none

/-- Continuation byte test. -/
def isCont (b : Nat) : Bool := 128 ≤ b && b ≤ 191

/-- One UTF-8-decoded code point off the front of a byte string, with the
remaining bytes; `none` on an invalid, overlong or surrogate sequence
(CPython's strict error handling). -/
def utf8DecodeChar1 : List Nat → Option (Nat × List Nat)
  | [] => none
  | b :: rest =>
      if b ≤ 127 then some (b, rest)
      else if 194 ≤ b ∧ b ≤ 223 then
        match rest with
        | b2 :: r => if isCont b2 then some ((b - 192) * 64 + (b2 - 128), r) else none
        | [] => none
      else if 224 ≤ b ∧ b ≤ 239 then
        match rest with
        | b2 :: b3 :: r =>
            if (if b = 224 then 160 ≤ b2 && b2 ≤ 191
                else if b = 237 then 128 ≤ b2 && b2 ≤ 159
                else isCont b2) && isCont b3 then
              some ((b - 224) * 4096 + (b2 - 128) * 64 + (b3 - 128), r)
            else none
        | _ => none
      else if 240 ≤ b ∧ b ≤ 244 then
        match rest with
        | b2 :: b3 :: b4 :: r =>
            if (if b = 240 then 144 ≤ b2 && b2 ≤ 191
                else if b = 244 then 128 ≤ b2 && b2 ≤ 143
                else isCont b2) && isCont b3 && isCont b4 then
              some ((b - 240) * 262144 + (b2 - 128) * 4096 + (b3 - 128) * 64 + (b4 - 128), r)
            else none
        | _ => none
      else none

/-- Fuel-indexed decoding loop; every decoded character consumes at least
one byte, so fuel equal to the byte count suffices. -/
def utf8DecodeAux : Nat → List Nat → Option (List Nat)
  | _, [] => some []
  | 0, _ :: _ => none
  | f + 1, b :: rest =>
      match utf8DecodeChar1 (b :: rest) with
      | none => none
      | some (c, r) => (utf8DecodeAux f r).map (fun s => c :: s)

/-- bytes.decode("utf-8") with strict error handling. -/
def utf8Decode (l : List Nat) : Option (List Nat) := utf8DecodeAux l.length l

/-! ### json.dumps side of the codec (ensure_ascii, compact separators, sort_keys) -/

/-- Lowercase hex digit. -/
def hexDigL (d : Nat) : Nat := if d < 10 then 48 + d else 87 + d

/-- Uppercase hex digit. -/
def hexDigU (d : Nat) : Nat := if d < 10 then 48 + d else 55 + d

/-- Four lowercase hex digits of a value below 65536. -/
def hex4 (v : Nat) : List Nat :=
  [hexDigL (v / 4096 % 16), hexDigL (v / 256 % 16), hexDigL (v / 16 % 16), hexDigL (v % 16)]

/-- Escaping of one character by json.dumps with the default
ensure_ascii=True (py_encode_basestring_ascii): printable ASCII other than
quote and backslash is literal, the short escapes cover quote, backslash
and the five named control characters, every other character becomes
backslash-u hex escapes, astral characters as a surrogate pair. -/
def escChar (c : Nat) : List Nat :=
  if c = 34 then [92, 34]
  else if c = 92 then [92, 92]
  else if c = 8 then [92, 98]
  else if c = 9 then [92, 116]
  else if c = 10 then [92, 110]
  else if c = 12 then [92, 102]
  else if c = 13 then [92, 114]
  else if 32 ≤ c ∧ c ≤ 126 then [c]
  else if c < 65536 then 92 :: 117 :: hex4 c
  else (92 :: 117 :: hex4 (55296 + (c - 65536) / 1024)) ++ (92 :: 117 :: hex4 (56320 + (c - 65536) % 1024))

/-- Escaped body of a JSON string literal. -/
def escString (s : List Nat) : List Nat := (s.map escChar).flatten

/-- Complete JSON string literal with its surrounding quotes. -/
def jsonStrLit (s : List Nat) : List Nat := 34 :: (escString s ++ [34])

/-- Decimal digits of a natural number, via an explicit fuel so that the
definition is structurally recursive and kernel-reducible. -/
def natReprAux : Nat → Nat → List Nat
  | 0, _ => []
  | f + 1, n => if n < 10 then [48 + n] else natReprAux f (n / 10) ++ [48 + n % 10]

/-- Decimal representation of a natural number (no leading zeros). -/
def natRepr (n : Nat) : List Nat := natReprAux (n + 1) n

/-- Decimal representation of a Python int as serialized by json.dumps. -/
def intRepr (z : Int) : List Nat :=
  if z < 0 then 45 :: natRepr (-z).toNat else natRepr z.toNat

/-- State payload built by jobber_start: internal client id, phone number
and an integer timestamp. -/
structure StatePayload where
  client_id : List Nat
  phone_number : List Nat
  ts : Int

/-- Result of json.dumps(payload, separators=(",",":"), sort_keys=True) on
the state payload dictionary: the keys client_id, phone_number, ts appear
in sorted order with compact separators; the output is ASCII, so its
UTF-8 encoding is the same byte list. -/
def dumpsStatePayload (P : StatePayload) : List Nat :=
  [123] ++ jsonStrLit (cp "client_id") ++ [58] ++ jsonStrLit P.client_id ++
  [44] ++ jsonStrLit (cp "phone_number") ++ [58] ++ jsonStrLit P.phone_number ++
  [44] ++ jsonStrLit (cp "ts") ++ [58] ++ intRepr P.ts ++ [125]

/-- encode_state from jobber_auth.py: URL-safe base64 of the canonical
JSON serialization of the payload.  No signature and no secret. -/
def encode_state (P : StatePayload) : List Nat := b64Encode (dumpsStatePayload P)

/-- The dictionary json.loads returns for an encoded state payload (the
same members in sorted key order). -/
def statePayloadJson (P : StatePayload) : JVal :=
  JVal.obj [(cp "client_id", JVal.str P.client_id),
            (cp "phone_number", JVal.str P.phone_number),
            (cp "ts", JVal.int P.ts)]

/-- Payload strings are modelled as sequences of Unicode scalar values
(i.e. JSON-representable text: no lone surrogates, in range). -/
def validStr (s : List Nat) : Bool :=
  s.all (fun c => c < 1114112 && !(55296 ≤ c && c < 57344))

/-! ### json.loads (CPython scanner over code points) -/

/-- Whitespace characters skipped by the json scanner. -/
def isWsCp (c : Nat) : Bool := c == 32 || c == 9 || c == 10 || c == 13

/-- Leading json whitespace removed. -/
def skipWs (l : List Nat) : List Nat := l.dropWhile isWsCp

/-- Decimal digit test. -/
def isDigitCp (c : Nat) : Bool := 48 ≤ c && c ≤ 57

/-- Value of a hex digit as accepted in backslash-u escapes. -/
def hexVal (c : Nat) : Option Nat :=
  if 48 ≤ c ∧ c ≤ 57 then some (c - 48)
  else if 97 ≤ c ∧ c ≤ 102 then some (c - 87)
  else if 65 ≤ c ∧ c ≤ 70 then some (c - 55)
  else none

/-- Four hex digits read off the input, with the rest of the input. -/
def readHex4 : List Nat → Option (Nat × List Nat)
  | a :: b :: c :: d :: rest =>
      match hexVal a, hexVal b, hexVal c, hexVal d with
      | some x, some y, some z, some w => some (((x * 16 + y) * 16 + z) * 16 + w, rest)
      | _, _, _, _ => none
  | _ => none

/-- Single-character escapes accepted after a backslash (other than u). -/
def escMap (e : Nat) : Option Nat :=
  if e = 34 then some 34
  else if e = 92 then some 92
  else if e = 47 then some 47
  else if e = 98 then some 8
  else if e = 102 then some 12
  else if e = 110 then some 10
  else if e = 114 then some 13
  else if e = 116 then some 9
  else none

/-- Backslash-u escape continuation of py_scanstring, positioned on the
four hex digits: surrogate pairs are combined exactly as CPython does (a
high surrogate followed by a literal backslash-u whose four hex digits
form a low surrogate); lone surrogates are kept. -/
def lexUEsc (r : List Nat) : Option (Nat × List Nat) :=
  match readHex4 r with
  | none => none
  | some (v, r2) =>
      if 55296 ≤ v ∧ v ≤ 56319 then
        match r2 with
        | a :: b :: r3 =>
            if a = 92 ∧ b = 117 then
              match readHex4 r3 with
              | none => none
              | some (w, r4) =>
                  if 56320 ≤ w ∧ w ≤ 57343 then
                    some (65536 + (v - 55296) * 1024 + (w - 56320), r4)
                  else some (v, a :: b :: r3)
            else some (v, a :: b :: r3)
        | r2 => some (v, r2)
      else some (v, r2)

/-- One string character off the front of the input inside a string
literal (past the opening quote, not at the closing quote): a literal
character or an escape, following py_scanstring; unescaped control
characters are rejected (strict=True). -/
def lexStrChar1 : List Nat → Option (Nat × List Nat)
  | [] => none
  | c :: rest =>
      if c = 92 then
        match rest with
        | [] => none
        | e :: r =>
            if e = 117 then lexUEsc r
            else
              match escMap e with
              | some ch => some (ch, r)
              | none => none
      else if c = 34 then none
      else if c < 32 then none
      else some (c, rest)

/-- py_scanstring, positioned just after the opening quote: returns the
string contents and the input after the closing quote.  The fuel bounds
the number of produced characters; every step consumes at least one input
character, so input length plus one is always sufficient. -/
def lexStr : Nat → List Nat → Option (List Nat × List Nat)
  | 0, _ => none
  | f + 1, l =>
      match l with
      | [] => none
      | c :: rest =>
          if c = 34 then some ([], rest)
          else
            match lexStrChar1 (c :: rest) with
            | none => none
            | some (ch, r) => (lexStr f r).map (fun p => (ch :: p.1, p.2))

/-- Boolean test that the first list is a leading segment of the second. -/
def hasPrefixL : List Nat → List Nat → Bool
  | [], _ => true
  | _ :: _, [] => false
  | a :: as, b :: bs => a == b && hasPrefixL as bs

/-- Maximal leading run of decimal digits, with the rest of the input. -/
def takeDigits : List Nat → (List Nat × List Nat)
  | [] => ([], [])
  | c :: rest =>
      if isDigitCp c then
        let p := takeDigits rest
        (c :: p.1, p.2)
      else ([], c :: rest)

/-- Numeric value of a digit string. -/
def digitsVal (ds : List Nat) : Nat := ds.foldl (fun a c => a * 10 + (c - 48)) 0

/-- Integer part of a JSON number: a single 0, or a nonzero digit followed
by further digits (NUMBER_RE group one). -/
def parseIntPart : List Nat → Option (List Nat × List Nat)
  | [] => none
  | c :: rest =>
      if c = 48 then some ([48], rest)
      else if 49 ≤ c ∧ c ≤ 57 then
        let p := takeDigits rest
        some (c :: p.1, p.2)
      else none

/-- Optional fraction part: a dot followed by at least one digit; if the
dot is not followed by a digit, nothing is consumed (the regex group
simply fails to match). -/
def parseFrac (l : List Nat) : List Nat × List Nat :=
  match l with
  | [] => ([], l)
  | c :: rest =>
      if c = 46 then
        match rest with
        | [] => ([], l)
        | d :: _ =>
            if isDigitCp d then
              let p := takeDigits rest
              (46 :: p.1, p.2)
            else ([], l)
      else ([], l)

/-- Optional exponent part: e or E, an optional sign, then at least one
digit; consumed only when fully present. -/
def parseExp (l : List Nat) : List Nat × List Nat :=
  match l with
  | e :: rest =>
      if e = 101 ∨ e = 69 then
        match rest with
        | s :: rest2 =>
            if s = 43 ∨ s = 45 then
              match rest2 with
              | d :: _ =>
                  if isDigitCp d then
                    let p := takeDigits rest2
                    (e :: s :: p.1, p.2)
                  else ([], l)
              | [] => ([], l)
            else if isDigitCp s then
              let p := takeDigits rest
              (e :: p.1, p.2)
            else ([], l)
        | [] => ([], l)
      else ([], l)
  | [] => ([], l)

/-- Body of a JSON number after the optional sign has been consumed. -/
def parseNumBody (neg : Bool) (l1 : List Nat) : Option (JVal × List Nat) :=
  match parseIntPart l1 with
  | none => none
  | some (ids, l2) =>
      let fr := parseFrac l2
      let ex := parseExp fr.2
      if fr.1 = [] ∧ ex.1 = [] then
        some (JVal.int (if neg then -(digitsVal ids : Int) else (digitsVal ids : Int)), ex.2)
      else
        some (JVal.float ((if neg then [45] else []) ++ ids ++ fr.1 ++ ex.1), ex.2)

/-- JSON number at the head of the input, following NUMBER_RE: integer
literals produce Python ints, literals with a fraction or exponent produce
floats (kept as their matched text). -/
def parseNumber (l : List Nat) : Option (JVal × List Nat) :=
  match l with
  | [] => none
  | c :: rest => if c = 45 then parseNumBody true rest else parseNumBody false (c :: rest)

mutual

/-- Json value scanner (CPython scan_once with the surrounding whitespace
handling of the object/array parsers folded in): leading whitespace is
skipped, then the value is dispatched on its first character.  The fuel
bounds the container nesting and member count; jsonLoads passes input
length plus one, which always suffices because every recursive step first
consumes at least one character (Python instead raises RecursionError on
deeper nesting, an exception callers of decode_state catch). -/
def parseValue : Nat → List Nat → Option (JVal × List Nat)
  | 0, _ => none
  | f + 1, input =>
      match skipWs input with
      | [] => none
      | c :: rest =>
          if c = 34 then (lexStr (rest.length + 1) rest).map (fun p => (JVal.str p.1, p.2))
          else if c = 123 then parseObjRest f rest
          else if c = 91 then parseArrRest f rest
          else if hasPrefixL (cp "null") (c :: rest) then some (JVal.null, rest.drop 3)
          else if hasPrefixL (cp "true") (c :: rest) then some (JVal.bool true, rest.drop 3)
          else if hasPrefixL (cp "false") (c :: rest) then some (JVal.bool false, rest.drop 4)
          else
            match parseNumber (c :: rest) with
            | some p => some p
            | none =>
                if hasPrefixL (cp "NaN") (c :: rest) then some (JVal.float (cp "NaN"), rest.drop 2)
                else if hasPrefixL (cp "Infinity") (c :: rest) then
                  some (JVal.float (cp "Infinity"), rest.drop 7)
                else if hasPrefixL (cp "-Infinity") (c :: rest) then
                  some (JVal.float (cp "-Infinity"), rest.drop 8)
                else none

def parseObjRest : Nat → List Nat → Option (JVal × List Nat)
  | 0, _ => none
  | f + 1, r =>
      match skipWs r with
      | [] => none
      | c :: r2 =>
          if c = 125 then some (JVal.obj [], r2)
          else (parseMembers f (c :: r2)).map (fun p => (JVal.obj p.1, p.2))

def parseMembers : Nat → List Nat → Option (List (List Nat × JVal) × List Nat)
  | 0, _ => none
  | f + 1, l =>
      match l with
      | [] => none
      | c :: r1 =>
          if c = 34 then
            match lexStr (r1.length + 1) r1 with
            | none => none
            | some (key, r2) => memberAfterKey f key r2
          else none

def memberAfterKey : Nat → List Nat → List Nat → Option (List (List Nat × JVal) × List Nat)
  | 0, _, _ => none
  | f + 1, key, r2 =>
      match skipWs r2 with
      | [] => none
      | c2 :: r3 =>
          if c2 = 58 then
            match parseValue f r3 with
            | none => none
            | some (v, r4) => memberAfterValue f key v r4
          else none

def memberAfterValue : Nat → List Nat → JVal → List Nat → Option (List (List Nat × JVal) × List Nat)
  | 0, _, _, _ => none
  | f + 1, key, v, r4 =>
      match skipWs r4 with
      | [] => none
      | c3 :: r5 =>
          if c3 = 44 then
            (parseMembers f (skipWs r5)).map (fun p => ((key, v) :: p.1, p.2))
          else if c3 = 125 then some ([(key, v)], r5)
          else none

def parseArrRest : Nat → List Nat → Option (JVal × List Nat)
  | 0, _ => none
  | f + 1, r =>
      match skipWs r with
      | [] => none
      | c :: r2 =>
          if c = 93 then some (JVal.arr [], r2)
          else (parseItems f (c :: r2)).map (fun p => (JVal.arr p.1, p.2))

def parseItems : Nat → List Nat → Option (List JVal × List Nat)
  | 0, _ => none
  | f + 1, l =>
      match parseValue f l with
      | none => none
      | some (v, r1) =>
          match skipWs r1 with
          | [] => none
          | c :: r2 =>
              if c = 44 then (parseItems f r2).map (fun p => (v :: p.1, p.2))
              else if c = 93 then some ([v], r2)
              else none

end

/-- json.loads on a text: parse one value, then require that only
whitespace remains (otherwise Python raises Extra data).  The fuel
3 * length + 4 always suffices: along every cycle of the mutual parser at
least one input character is consumed per three fuel decrements. -/
def jsonLoads (l : List Nat) : Option JVal :=
  match parseValue (3 * l.length + 4) l with
  | some (v, rest) => if skipWs rest = [] then some v else none
  | none => none

/-! ### decode_state and Python dict / truthiness helpers -/

/-- Stages of decode_state before the catch-all except: encode the token
to UTF-8 bytes, base64-decode, decode the raw bytes as UTF-8, json-parse.
`none` models any exception raised inside the try block. -/
def decodeStatePipeline (token : List Nat) : Option JVal :=
  (utf8Encode token).bind (fun bytes =>
    (urlsafeB64Decode bytes).bind (fun raw =>
      (utf8Decode raw).bind (fun txt => jsonLoads txt)))

/-- decode_state from jobber_auth.py: any exception in the pipeline is
caught and turned into the empty dictionary. -/
def decode_state (token : List Nat) : JVal :=
  match decodeStatePipeline token with
  | some v => v
  | none => JVal.obj []

/-- dict.get on a dictionary built by json.loads from a member list:
later duplicate keys overwrite earlier ones, so the last matching member
wins; a missing key gives None (modelled as `none`). -/
def dictGet (kvs : List (List Nat × JVal)) (k : List Nat) : Option JVal :=
  match kvs with
  | [] => none
  | (k1, v1) :: rest =>
      match dictGet rest k with
      | some v => some v
      | none => if k1 = k then some v1 else none

/-- Python truthiness of a float literal by its mantissa digits: falsy
when they are all zero (0.0, -0.0, 0e5, ...); NaN and Infinity are truthy.
This over-approximates Python in the truthy direction: a nonzero literal
that underflows float() to 0.0 (such as 1e-999) is falsy in Python but
counted truthy here.  Model-falsy therefore implies Python-falsy, and the
theorems below rely on it only in that direction; where a payload value
must be Python-truthy, they pin it to a nonempty string instead. -/
def floatTruthy (raw : List Nat) : Bool :=
  !((raw.takeWhile (fun c => c ≠ 101 ∧ c ≠ 69)).all
      (fun c => c = 48 ∨ c = 46 ∨ c = 45 ∨ c = 43))

/-- Python truthiness of a json.loads value. -/
def truthy : JVal → Bool
  | JVal.null => false
  | JVal.bool b => b
  | JVal.int n => n ≠ 0
  | JVal.float raw => floatTruthy raw
  | JVal.str s => s ≠ []
  | JVal.arr l => !l.isEmpty
  | JVal.obj l => !l.isEmpty

/-- Truthiness of the result of dict.get (None when missing). -/
def truthyOpt : Option JVal → Bool
  | none => false
  | some v => truthy v

/-- Truthiness of an optional string request parameter (missing or empty
is falsy, as in Python's `if not code`). -/
def truthyStr : Option (List Nat) → Bool
  | none => false
  | some s => s ≠ []

/-! ### Sink forwarder (store_jobber_tokens_for_client) -/

/-- HTTP response as seen by the handler: status code and body text (the
body is modelled as the decoded text, which is what the code reads). -/
structure HttpResp where
  status : Nat
  text : List Nat
deriving DecidableEq

/-- Outcome of an outbound httpx post: the exception branch or a
response. -/
inductive PostResult where
  | exn : PostResult
  | resp (r : HttpResp) : PostResult
deriving DecidableEq

/-- ASCII whitespace stripped by str.strip (the bodies the code matches on
are ASCII; full Unicode whitespace is not modelled). -/
def isStripWs (c : Nat) : Bool := c = 32 || c = 9 || c = 10 || c = 13 || c = 11 || c = 12

/-- str.strip on both ends. -/
def pyStrip (s : List Nat) : List Nat :=
  ((s.dropWhile isStripWs).reverse.dropWhile isStripWs).reverse

/-- ASCII str.lower (the success marker is ASCII; non-ASCII case mappings
are not modelled). -/
def asciiLower (s : List Nat) : List Nat :=
  s.map (fun c => if 65 ≤ c ∧ c ≤ 90 then c + 32 else c)

/-- Containment of one character sequence inside another. -/
def containsSeq (needle : List Nat) : List Nat → Bool
  | [] => hasPrefixL needle []
  | c :: rest => hasPrefixL needle (c :: rest) || containsSeq needle rest

/-- Success heuristic on a response body: strip, lowercase, and look for
the substring success. -/
def bodyHasSuccess (body : List Nat) : Bool :=
  containsSeq (cp "success") (asciiLower (pyStrip body))

/-- store_jobber_tokens_for_client from jobber_auth.py, with the outbound
post modelled as a parameter.  When no webhook URL is configured (unset or
empty, both falsy) the flow is not blocked and the verdict is True; a
transport exception gives False; otherwise the verdict is the 2xx-status
and success-substring heuristic.  The posted payload itself (tokens,
phone, expiry timestamp) does not influence the verdict and is not
modelled. -/
def store_jobber_tokens_for_client (n8nUrl : Option (List Nat)) (post : PostResult) : Bool :=
  match n8nUrl with
  | none => true
  | some u =>
      if u = [] then true
      else
        match post with
        | PostResult.exn => false
        | PostResult.resp r =>
            decide (200 ≤ r.status) && decide (r.status < 300) && bodyHasSuccess r.text

/-! ### Callback handler (jobber_callback) -/

/-- Environment configuration read at module import. -/
structure Config where
  clientId : List Nat
  clientSecret : List Nat
  redirectUri : List Nat
  n8nUrl : Option (List Nat)

/-- Form fields of the single code-for-token exchange request. -/
structure TokenRequest where
  grant_type : List Nat
  code : List Nat
  client_id : List Nat
  client_secret : List Nat
  redirect_uri : List Nat
deriving DecidableEq

/-- Result of a request handler: an HTTPException with status and detail,
a RedirectResponse (Starlette's default redirect status is 307), or an
unhandled exception surfacing as a server error (FastAPI's 500). -/
inductive HandlerResult where
  | httpError (status : Nat) (detail : List Nat) : HandlerResult
  | redirect (status : Nat) (url : List Nat) : HandlerResult
  | serverError : HandlerResult
deriving DecidableEq

/-- Handler outcome together with the trace of outbound calls: the
token-endpoint requests performed and the number of invocations of the
sink forwarder. -/
structure CallbackOutcome where
  result : HandlerResult
  tokenCalls : List TokenRequest
  sinkForwards : Nat
deriving DecidableEq

/-- Terminal frontend pages. -/
def phoneRequiredUrl : List Nat := cp "https://jobber-connect-frontend.vercel.app/phone-required.html"

/-- Failure terminal page used when the sink verdict is not success. -/
def phoneNotFoundUrl : List Nat := cp "https://jobber-connect-frontend.vercel.app/phone-not-found.html"

/-- Success terminal page. -/
def successUrl : List Nat := cp "https://jobber-connect-frontend.vercel.app/success.html"

/-- The state payload used by the callback: decode_state when the state
parameter is present and truthy, otherwise the empty dictionary
(`decode_state(state) if state else {}`). -/
def callbackStatePayload (state : Option (List Nat)) : JVal :=
  match state with
  | none => JVal.obj []
  | some s => if s = [] then JVal.obj [] else decode_state s

/-- The form data of the code-for-token exchange request the handler
sends: grant type, authorization code, client credentials, redirect URI. -/
def tokenReq (cfg : Config) (c : List Nat) : TokenRequest :=
  ⟨cp "authorization_code", c, cfg.clientId, cfg.clientSecret, cfg.redirectUri⟩

/-- Values Python can add to the float timestamp when the sink payload
builds jobber_expires_at (datetime.utcnow().timestamp() + expires_in):
ints, bools and floats.  Anything else (a string, None, a list or a
dictionary) raises TypeError there. -/
def addableToFloat : JVal → Bool
  | JVal.int _ => true
  | JVal.bool _ => true
  | JVal.float _ => true
  | _ => false

/-- Continuation of the exchange once the token response parsed to a
dictionary: data without access_token raises a KeyError (server error).
Then expires_in (defaulting to 3600) flows into the sink payload's
jobber_expires_at sum, which the source computes inside
store_jobber_tokens_for_client before the webhook check and outside any
try: a non-numeric expires_in raises TypeError, which propagates uncaught
through the handler (server error) with no sink post attempted; the raise
is modelled here at the call site so that store_jobber_tokens_for_client
keeps modelling only the verdict policy of a completed call.  Otherwise
the forwarder verdict picks the success or phone-not-found redirect. -/
def exchangeWithData (cfg : Config) (sinkPost : PostResult) (c : List Nat)
    (d : List (List Nat × JVal)) : CallbackOutcome :=
  match dictGet d (cp "access_token") with
  | some _ =>
      if addableToFloat ((dictGet d (cp "expires_in")).getD (JVal.int 3600)) then
        if store_jobber_tokens_for_client cfg.n8nUrl sinkPost then
          ⟨HandlerResult.redirect 307 successUrl, [tokenReq cfg c], 1⟩
        else
          ⟨HandlerResult.redirect 307 phoneNotFoundUrl, [tokenReq cfg c], 1⟩
      else ⟨HandlerResult.serverError, [tokenReq cfg c], 0⟩
  | none => ⟨HandlerResult.serverError, [tokenReq cfg c], 0⟩

/-- Token exchange step of the callback (the handler past the identity
checks): the exchange call happens exactly here, so every branch records
the one request; a non-200 response gives 400 with the upstream body in
the detail; response JSON that cannot be parsed or is not a dictionary
raises (server error). -/
def callbackExchange (cfg : Config) (tokenResp : HttpResp) (sinkPost : PostResult)
    (c : List Nat) : CallbackOutcome :=
  if tokenResp.status ≠ 200 then
    ⟨HandlerResult.httpError 400 (cp "Token exchange failed: " ++ tokenResp.text),
     [tokenReq cfg c], 0⟩
  else
    match jsonLoads tokenResp.text with
    | some (JVal.obj d) => exchangeWithData cfg sinkPost c d
    | some _ => ⟨HandlerResult.serverError, [tokenReq cfg c], 0⟩
    | none => ⟨HandlerResult.serverError, [tokenReq cfg c], 0⟩

/-- Identity check step of the callback on a dictionary payload: without
a truthy phone_number and client_id the user is redirected to the
phone-required page before any outbound call. -/
def callbackWithPayload (cfg : Config) (tokenResp : HttpResp) (sinkPost : PostResult)
    (c : List Nat) (kvs : List (List Nat × JVal)) : CallbackOutcome :=
  if !truthyOpt (dictGet kvs (cp "phone_number")) ||
     !truthyOpt (dictGet kvs (cp "client_id")) then
    ⟨HandlerResult.redirect 307 phoneRequiredUrl, [], 0⟩
  else callbackExchange cfg tokenResp sinkPost c

/-- Callback body once a truthy code is present: the state payload is
decoded; a non-dictionary payload makes the .get attribute access raise
(server error, before any outbound call). -/
def callbackBody (cfg : Config) (tokenResp : HttpResp) (sinkPost : PostResult)
    (c : List Nat) (state : Option (List Nat)) : CallbackOutcome :=
  match callbackStatePayload state with
  | JVal.obj kvs => callbackWithPayload cfg tokenResp sinkPost c kvs
  | _ => ⟨HandlerResult.serverError, [], 0⟩

/-- jobber_callback from jobber_auth.py.  The token-endpoint response and
the sink post outcome are oracle parameters (what the collaborators would
answer if called); the trace records which calls actually happen.
Control flow follows the source: a missing or empty code gives 400 before
anything else. -/
def jobber_callback (cfg : Config) (tokenResp : HttpResp) (sinkPost : PostResult)
    (code : Option (List Nat)) (state : Option (List Nat)) : CallbackOutcome :=
  match code with
  | none => ⟨HandlerResult.httpError 400 (cp "Missing code"), [], 0⟩
  | some c =>
      if c = [] then ⟨HandlerResult.httpError 400 (cp "Missing code"), [], 0⟩
      else callbackBody cfg tokenResp sinkPost c state

/-! ### Authorization initiator (jobber_start) -/

/-- Stub phone lookup from jobber_auth.py: always maps to the test
client. -/
def get_william_client_id_by_phone (_phone : List Nat) : Option (List Nat) :=
  some (cp "test_client_1")

/-- Characters urllib.parse.quote_plus leaves unescaped: ASCII letters,
digits, underscore, dot, dash and tilde. -/
def quoteSafe (c : Nat) : Bool :=
  (48 ≤ c && c ≤ 57) || (65 ≤ c && c ≤ 90) || (97 ≤ c && c ≤ 122) ||
  c = 45 || c = 46 || c = 95 || c = 126

/-- Percent-encoding of one byte, uppercase hex. -/
def pctByte (b : Nat) : List Nat := [37, hexDigU (b / 16 % 16), hexDigU (b % 16)]

/-- urllib.parse.quote_plus on one character: safe characters unchanged,
space becomes plus, anything else is percent-encoded per UTF-8 byte. -/
def quotePlusChar (c : Nat) : List Nat :=
  if quoteSafe c then [c]
  else if c = 32 then [43]
  else
    match utf8EncodeChar c with
    | some bs => (bs.map pctByte).flatten
    | none => []

/-- urllib.parse.quote_plus on a string. -/
def quotePlus (s : List Nat) : List Nat := (s.map quotePlusChar).flatten

/-- Jobber authorization endpoint. -/
def JOBBER_AUTH_URL : List Nat := cp "https://api.getjobber.com/api/oauth/authorize"

/-- Scope requested by jobber_start. -/
def startScope : List Nat := cp "clients:read clients:write"

/-- urlencode of the fixed five-parameter dictionary built by
jobber_start, in insertion order. -/
def startParamsQuery (cfg : Config) (state : List Nat) : List Nat :=
  quotePlus (cp "response_type") ++ [61] ++ quotePlus (cp "code") ++
  [38] ++ quotePlus (cp "client_id") ++ [61] ++ quotePlus cfg.clientId ++
  [38] ++ quotePlus (cp "redirect_uri") ++ [61] ++ quotePlus cfg.redirectUri ++
  [38] ++ quotePlus (cp "scope") ++ [61] ++ quotePlus startScope ++
  [38] ++ quotePlus (cp "state") ++ [61] ++ quotePlus state

/-- Result of the start handler: error or a 200 with the OAuth URL. -/
inductive StartResult where
  | httpError (status : Nat) (detail : List Nat) : StartResult
  | ok (url : List Nat) : StartResult
deriving DecidableEq

/-- jobber_start from jobber_auth.py, with the phone lookup as a
parameter (the source's stub always answers test_client_1) and the clock
as a parameter.  The body is modelled by its phone_number member; missing
or empty (falsy) gives 400, a falsy lookup result gives 404, otherwise
the provider authorization URL is built with a freshly encoded state. -/
def jobber_start (cfg : Config) (lookup : List Nat → Option (List Nat)) (now : Int)
    (phone : Option (List Nat)) : StartResult :=
  match phone with
  | none => StartResult.httpError 400 (cp "phone_number required")
  | some p =>
      if p = [] then StartResult.httpError 400 (cp "phone_number required")
      else
        match lookup p with
        | none => StartResult.httpError 404 (cp "Client not found for this phone number")
        | some w =>
            if w = [] then StartResult.httpError 404 (cp "Client not found for this phone number")
            else
              let state := encode_state ⟨w, p, now⟩
              StartResult.ok (JOBBER_AUTH_URL ++ [63] ++ startParamsQuery cfg state)

/-- Redirect status of a handler result, when it is a redirect. -/
def redirectStatus : HandlerResult → Option Nat
  | HandlerResult.redirect s _ => some s
  | _ => none

/-- Test for an HTTP 400 error result. -/
def isHttp400 : HandlerResult → Bool
  | HandlerResult.httpError s _ => s == 400
  | _ => false

/-- Concrete configuration used in witness and counterexample
evaluations. -/
def cfgEx : Config :=
  ⟨cp "CLIENTID123", cp "SECRET456", cp "https://example.org/jobber/callback",
   some (cp "https://n8n.example.org/webhook/jobber-tokens")⟩

/-- Concrete successful token-endpoint response. -/
def tokRespEx : HttpResp :=
  ⟨200, cp "\x7b\"access_token\":\"tok123\",\"refresh_token\":\"ref456\",\"expires_in\":3600\x7d"⟩

/-- Concrete sink response carrying the success marker. -/
def sinkOkEx : PostResult := PostResult.resp ⟨200, cp "ok success"⟩

/-- Concrete sink response for an unknown phone number (no marker). -/
def sinkNotFoundEx : PostResult := PostResult.resp ⟨200, cp "Client number not found."⟩

/-- Concrete encoded state for the test payload. -/
def stateEx : List Nat := encode_state ⟨cp "test_client_1", cp "12185551234", 1700000000⟩

/-- Input whose head is not a decimal digit (or empty input). -/
def headND (l : List Nat) : Bool :=
  match l with
  | [] => true
  | c :: _ => !isDigitCp c

/-- Input whose head cannot extend a number literal: not a digit, dot or
exponent letter. -/
def numBoundary (l : List Nat) : Bool :=
  match l with
  | [] => true
  | c :: _ => !isDigitCp c && c != 46 && c != 101 && c != 69

/-! ### Lemmas: base64 roundtrip -/

theorem b64EncDigit_ne_61 (d : Nat) : b64EncDigit d ≠ 61 := by
  unfold b64EncDigit; split_ifs <;> omega

theorem b64EncDigit_lt_128 (d : Nat) : b64EncDigit d < 128 := by
  unfold b64EncDigit; split_ifs <;> omega

theorem b64DigitVal_enc : ∀ d < 64, b64DigitVal (b64EncDigit d) = some d := by decide

theorem b64ScanL_data (g : List Nat) (p d : Nat) (rest : List Nat)
    (hd : d < 64) (hg : g.length < 3) :
    b64ScanL g p (b64EncDigit d :: rest) = b64ScanL (g ++ [d]) 0 rest := by
  have h61 : ¬(b64EncDigit d = 61) := b64EncDigit_ne_61 d
  rcases g with _ | ⟨x, _ | ⟨y, _ | ⟨z, t⟩⟩⟩
  · simp only [b64ScanL, if_neg h61, b64DigitVal_enc d hd]
  · simp only [b64ScanL, if_neg h61, b64DigitVal_enc d hd]
  · simp only [b64ScanL, if_neg h61, b64DigitVal_enc d hd]
  · simp only [List.length_cons] at hg
    omega
theorem b64ScanL_data3 (d1 d2 d3 p d : Nat) (rest : List Nat) (hd : d < 64) :
    b64ScanL [d1, d2, d3] p (b64EncDigit d :: rest) =
    (b64ScanL [] 0 rest).map (fun bs => b64Group4 d1 d2 d3 d ++ bs) := by
  have h61 : ¬(b64EncDigit d = 61) := b64EncDigit_ne_61 d
  simp only [b64ScanL, if_neg h61, b64DigitVal_enc d hd]

theorem b64ScanL_pad2_first (d1 d2 : Nat) (rest : List Nat) :
    b64ScanL [d1, d2] 0 (61 :: rest) = b64ScanL [d1, d2] 1 rest := by
  simp [b64ScanL]

theorem b64ScanL_pad2_second (d1 d2 p : Nat) (rest : List Nat) (hp : 1 ≤ p) :
    b64ScanL [d1, d2] p (61 :: rest) = some [d1 * 4 + d2 / 16] := by
  simp only [b64ScanL, if_pos rfl]
  rw [if_pos (show 2 ≤ ([d1, d2] : List Nat).length ∧
        4 ≤ ([d1, d2] : List Nat).length + (p + 1) by
      simp only [List.length_cons, List.length_nil]
      omega)]
  rfl

theorem b64ScanL_pad3 (d1 d2 d3 p : Nat) (rest : List Nat) :
    b64ScanL [d1, d2, d3] p (61 :: rest) = some [d1 * 4 + d2 / 16, d2 % 16 * 16 + d3 / 4] := by
  simp only [b64ScanL, if_pos rfl]
  rw [if_pos (show 2 ≤ ([d1, d2, d3] : List Nat).length ∧
        4 ≤ ([d1, d2, d3] : List Nat).length + (p + 1) by
      simp only [List.length_cons, List.length_nil]
      omega)]
  rfl

theorem b64_roundtrip_aux : ∀ n l, l.length ≤ n → (∀ b ∈ l, b < 256) →
    b64ScanL [] 0 (b64Encode l) = some l := by
  intro n
  induction n with
  | zero =>
      intro l hl _
      rcases l with _ | ⟨a, t⟩
      · rfl
      · simp at hl
  | succ n ih =>
      intro l hl hb
      rcases l with _ | ⟨a, _ | ⟨b, _ | ⟨c, rest⟩⟩⟩
      · rfl
      · have ha : a < 256 := hb a (by simp)
        show b64ScanL [] 0 (b64Encode [a]) = some [a]
        rw [show b64Encode [a] =
              [b64EncDigit (a / 4), b64EncDigit (a % 4 * 16), 61, 61] from rfl]
        rw [b64ScanL_data [] 0 (a / 4) _ (by omega) (by simp)]
        simp only [List.nil_append, List.cons_append]
        rw [b64ScanL_data [a / 4] 0 (a % 4 * 16) _ (by omega) (by simp)]
        simp only [List.nil_append, List.cons_append]
        rw [b64ScanL_pad2_first, b64ScanL_pad2_second _ _ _ _ (by omega)]
        have : a / 4 * 4 + a % 4 * 16 / 16 = a := by omega
        rw [this]
      · have ha : a < 256 := hb a (by simp)
        have hbb : b < 256 := hb b (by simp)
        show b64ScanL [] 0 (b64Encode [a, b]) = some [a, b]
        rw [show b64Encode [a, b] =
              [b64EncDigit (a / 4), b64EncDigit (a % 4 * 16 + b / 16),
               b64EncDigit (b % 16 * 4), 61] from rfl]
        rw [b64ScanL_data [] 0 (a / 4) _ (by omega) (by simp)]
        simp only [List.nil_append, List.cons_append]
        rw [b64ScanL_data [a / 4] 0 (a % 4 * 16 + b / 16) _ (by omega) (by simp)]
        simp only [List.nil_append, List.cons_append]
        rw [b64ScanL_data [a / 4, a % 4 * 16 + b / 16] 0 (b % 16 * 4) _ (by omega) (by simp)]
        simp only [List.nil_append, List.cons_append]
        rw [b64ScanL_pad3]
        have h1 : a / 4 * 4 + (a % 4 * 16 + b / 16) / 16 = a := by omega
        have h2 : (a % 4 * 16 + b / 16) % 16 * 16 + b % 16 * 4 / 4 = b := by omega
        rw [h1, h2]
      · have ha : a < 256 := hb a (by simp)
        have hbb : b < 256 := hb b (by simp)
        have hc : c < 256 := hb c (by simp)
        show b64ScanL [] 0 (b64Encode (a :: b :: c :: rest)) = some (a :: b :: c :: rest)
        rw [show b64Encode (a :: b :: c :: rest) =
              b64EncDigit (a / 4) :: b64EncDigit (a % 4 * 16 + b / 16) ::
              b64EncDigit (b % 16 * 4 + c / 64) :: b64EncDigit (c % 64) ::
              b64Encode rest from rfl]
        rw [b64ScanL_data [] 0 (a / 4) _ (by omega) (by simp)]
        simp only [List.nil_append, List.cons_append]
        rw [b64ScanL_data [a / 4] 0 (a % 4 * 16 + b / 16) _ (by omega) (by simp)]
        simp only [List.nil_append, List.cons_append]
        rw [b64ScanL_data [a / 4, a % 4 * 16 + b / 16] 0 (b % 16 * 4 + c / 64) _ (by omega) (by simp)]
        simp only [List.nil_append, List.cons_append]
        rw [b64ScanL_data3 _ _ _ _ (c % 64) _ (by omega)]
        rw [ih rest (by simp at hl; omega) (fun x hx => hb x (by simp [hx]))]
        have hg : b64Group4 (a / 4) (a % 4 * 16 + b / 16) (b % 16 * 4 + c / 64) (c % 64) =
            [a, b, c] := by
          unfold b64Group4
          have e1 : a / 4 * 4 + (a % 4 * 16 + b / 16) / 16 = a := by omega
          have e2 : (a % 4 * 16 + b / 16) % 16 * 16 + (b % 16 * 4 + c / 64) / 4 = b := by omega
          have e3 : (b % 16 * 4 + c / 64) % 4 * 64 + c % 64 = c := by omega
          rw [e1, e2, e3]
        rw [hg]
        rfl

theorem b64Encode_decode (l : List Nat) (hb : ∀ x ∈ l, x < 256) :
    urlsafeB64Decode (b64Encode l) = some l :=
  b64_roundtrip_aux l.length l (Nat.le_refl _) hb

/-! ### Lemmas: ASCII text and UTF-8 -/

theorem utf8Encode_ascii : ∀ l : List Nat, (∀ c ∈ l, c < 128) → utf8Encode l = some l := by
  intro l
  induction l with
  | nil => intro _; rfl
  | cons c rest ih =>
      intro h
      have hc : utf8EncodeChar c = some [c] := by
        unfold utf8EncodeChar; rw [if_pos (h c (by simp))]
      have hr := ih (fun x hx => h x (by simp [hx]))
      unfold utf8Encode
      rw [hc, hr]
      rfl

theorem utf8DecodeChar1_ascii (b : Nat) (rest : List Nat) (hb : b ≤ 127) :
    utf8DecodeChar1 (b :: rest) = some (b, rest) := by
  simp only [utf8DecodeChar1]
  rw [if_pos hb]

theorem utf8DecodeAux_ascii : ∀ f l, l.length ≤ f → (∀ b ∈ l, b < 128) →
    utf8DecodeAux f l = some l := by
  intro f
  induction f with
  | zero =>
      intro l hl _
      cases l with
      | nil => rfl
      | cons b rest => simp at hl
  | succ f ih =>
      intro l hl h
      cases l with
      | nil => rfl
      | cons b rest =>
          have hb : b ≤ 127 := by have := h b (by simp); omega
          rw [utf8DecodeAux, utf8DecodeChar1_ascii b rest hb]
          show Option.map (fun s => b :: s) (utf8DecodeAux f rest) = some (b :: rest)
          rw [ih rest (by simp at hl; omega) (fun x hx => h x (by simp [hx]))]
          rfl

theorem utf8Decode_ascii (l : List Nat) (h : ∀ b ∈ l, b < 128) : utf8Decode l = some l :=
  utf8DecodeAux_ascii l.length l (Nat.le_refl _) h

theorem hexDigL_lt (d : Nat) (hd : d < 16) : hexDigL d < 128 := by
  unfold hexDigL; split_ifs <;> omega

theorem mem_hex4_lt (v x : Nat) (hx : x ∈ hex4 v) : x < 128 := by
  simp only [hex4, List.mem_cons, List.not_mem_nil, or_false] at hx
  rcases hx with rfl | rfl | rfl | rfl <;>
    exact hexDigL_lt _ (Nat.mod_lt _ (by omega))

theorem mem_escChar_lt (c x : Nat) (hx : x ∈ escChar c) : x < 128 := by
  unfold escChar at hx
  split_ifs at hx with h1 h2 h3 h4 h5 h6 h7 h8 h9
  · simp only [List.mem_cons, List.not_mem_nil, or_false] at hx
    rcases hx with rfl | rfl <;> omega
  · simp only [List.mem_cons, List.not_mem_nil, or_false] at hx
    rcases hx with rfl | rfl <;> omega
  · simp only [List.mem_cons, List.not_mem_nil, or_false] at hx
    rcases hx with rfl | rfl <;> omega
  · simp only [List.mem_cons, List.not_mem_nil, or_false] at hx
    rcases hx with rfl | rfl <;> omega
  · simp only [List.mem_cons, List.not_mem_nil, or_false] at hx
    rcases hx with rfl | rfl <;> omega
  · simp only [List.mem_cons, List.not_mem_nil, or_false] at hx
    rcases hx with rfl | rfl <;> omega
  · simp only [List.mem_cons, List.not_mem_nil, or_false] at hx
    rcases hx with rfl | rfl <;> omega
  · simp only [List.mem_cons, List.not_mem_nil, or_false] at hx
    rcases hx with rfl
    omega
  · simp only [List.mem_cons] at hx
    rcases hx with rfl | rfl | hx
    · omega
    · omega
    · exact mem_hex4_lt _ x hx
  · simp only [List.mem_append, List.mem_cons] at hx
    rcases hx with (rfl | rfl | hx) | (rfl | rfl | hx)
    · omega
    · omega
    · exact mem_hex4_lt _ x hx
    · omega
    · omega
    · exact mem_hex4_lt _ x hx

theorem mem_escString_lt (s : List Nat) (x : Nat) (hx : x ∈ escString s) : x < 128 := by
  simp only [escString, List.mem_flatten, List.mem_map] at hx
  rcases hx with ⟨chunk, ⟨c, _, rfl⟩, hxc⟩
  exact mem_escChar_lt c x hxc

theorem jsonStrLit_all_lt_128 (s : List Nat) : ∀ x ∈ jsonStrLit s, x < 128 := by
  intro x hx
  simp only [jsonStrLit, List.mem_cons, List.mem_append, List.not_mem_nil, or_false] at hx
  rcases hx with rfl | hx | rfl
  · omega
  · exact mem_escString_lt s x hx
  · omega

theorem mem_natReprAux_digit : ∀ f n x, x ∈ natReprAux f n → 48 ≤ x ∧ x ≤ 57 := by
  intro f
  induction f with
  | zero => intro n x hx; simp [natReprAux] at hx
  | succ f ih =>
      intro n x hx
      unfold natReprAux at hx
      split_ifs at hx with h
      · simp only [List.mem_singleton] at hx
        omega
      · simp only [List.mem_append, List.mem_singleton] at hx
        rcases hx with hx | rfl
        · exact ih _ x hx
        · have := Nat.mod_lt n (show 0 < 10 by omega)
          omega

theorem intRepr_all_lt_128 (z : Int) : ∀ x ∈ intRepr z, x < 128 := by
  intro x hx
  unfold intRepr at hx
  split_ifs at hx with h
  · simp only [List.mem_cons] at hx
    rcases hx with rfl | hx
    · omega
    · have := mem_natReprAux_digit _ _ x hx
      omega
  · have := mem_natReprAux_digit _ _ x hx
    omega

theorem dumps_all_lt_128 (P : StatePayload) : ∀ x ∈ dumpsStatePayload P, x < 128 := by
  intro x hx
  simp only [dumpsStatePayload, List.mem_append, List.mem_cons, List.not_mem_nil, or_false,
    or_assoc] at hx
  rcases hx with rfl | hx | rfl | hx | rfl | hx | rfl | hx | rfl | hx | rfl | hx | rfl
  · omega
  · exact jsonStrLit_all_lt_128 _ x hx
  · omega
  · exact jsonStrLit_all_lt_128 _ x hx
  · omega
  · exact jsonStrLit_all_lt_128 _ x hx
  · omega
  · exact jsonStrLit_all_lt_128 _ x hx
  · omega
  · exact jsonStrLit_all_lt_128 _ x hx
  · omega
  · exact intRepr_all_lt_128 _ x hx
  · omega

/-! ### Lemmas: string escaping roundtrip -/

theorem hexVal_hexDigL : ∀ d < 16, hexVal (hexDigL d) = some d := by decide

theorem readHex4_hex4 (v : Nat) (hv : v < 65536) (rest : List Nat) :
    readHex4 (hex4 v ++ rest) = some (v, rest) := by
  have h1 := hexVal_hexDigL (v / 4096 % 16) (Nat.mod_lt _ (by omega))
  have h2 := hexVal_hexDigL (v / 256 % 16) (Nat.mod_lt _ (by omega))
  have h3 := hexVal_hexDigL (v / 16 % 16) (Nat.mod_lt _ (by omega))
  have h4 := hexVal_hexDigL (v % 16) (Nat.mod_lt _ (by omega))
  show readHex4 (hexDigL (v / 4096 % 16) :: hexDigL (v / 256 % 16) ::
    hexDigL (v / 16 % 16) :: hexDigL (v % 16) :: rest) = some (v, rest)
  rw [readHex4, h1, h2, h3, h4]
  show some (((v / 4096 % 16 * 16 + v / 256 % 16) * 16 + v / 16 % 16) * 16 + v % 16, rest) =
    some (v, rest)
  have : ((v / 4096 % 16 * 16 + v / 256 % 16) * 16 + v / 16 % 16) * 16 + v % 16 = v := by
    omega
  rw [this]

theorem validStr_cons (c : Nat) (s : List Nat) (h : validStr (c :: s) = true) :
    (c < 1114112 ∧ ¬(55296 ≤ c ∧ c < 57344)) ∧ validStr s = true := by
  simp only [validStr, List.all_cons, Bool.and_eq_true, decide_eq_true_eq] at h
  obtain ⟨⟨ha, hb⟩, h2⟩ := h
  refine ⟨⟨ha, ?_⟩, h2⟩
  intro hc
  simp [hc.1, hc.2] at hb

theorem lexStrChar1_u (r : List Nat) : lexStrChar1 (92 :: 117 :: r) = lexUEsc r := rfl

theorem lexUEsc_pair (hi lo : Nat) (hhi : hi ≤ 1023) (hlo : lo ≤ 1023) (rest : List Nat) :
    lexUEsc (hex4 (55296 + hi) ++ (92 :: 117 :: (hex4 (56320 + lo) ++ rest))) =
    some (65536 + hi * 1024 + lo, rest) := by
  rw [lexUEsc, readHex4_hex4 _ (by omega) _]
  show (if 55296 ≤ 55296 + hi ∧ 55296 + hi ≤ 56319 then _ else _) =
    some (65536 + hi * 1024 + lo, rest)
  rw [if_pos (by omega : 55296 ≤ 55296 + hi ∧ 55296 + hi ≤ 56319)]
  show (if (92 : Nat) = 92 ∧ (117 : Nat) = 117 then _ else _) =
    some (65536 + hi * 1024 + lo, rest)
  rw [if_pos (⟨rfl, rfl⟩ : (92 : Nat) = 92 ∧ (117 : Nat) = 117)]
  rw [readHex4_hex4 _ (by omega) _]
  show (if 56320 ≤ 56320 + lo ∧ 56320 + lo ≤ 57343 then _ else _) =
    some (65536 + hi * 1024 + lo, rest)
  rw [if_pos (by omega : 56320 ≤ 56320 + lo ∧ 56320 + lo ≤ 57343)]
  have : 65536 + (55296 + hi - 55296) * 1024 + (56320 + lo - 56320) =
      65536 + hi * 1024 + lo := by omega
  rw [this]

theorem escChar_astral (c : Nat) (h34 : c ≠ 34) (h92 : c ≠ 92)
    (h8 : c ≠ 8) (h9 : c ≠ 9) (h10 : c ≠ 10) (h12 : c ≠ 12) (h13 : c ≠ 13)
    (hpr : ¬(32 ≤ c ∧ c ≤ 126)) (hbmp : ¬(c < 65536)) :
    escChar c =
      (92 :: 117 :: hex4 (55296 + (c - 65536) / 1024)) ++
      (92 :: 117 :: hex4 (56320 + (c - 65536) % 1024)) := by
  unfold escChar
  rw [if_neg h34, if_neg h92, if_neg h8, if_neg h9, if_neg h10, if_neg h12, if_neg h13,
    if_neg hpr, if_neg hbmp]

theorem lexStrChar1_esc (c : Nat) (rest : List Nat)
    (hlt : c < 1114112) (hsur : ¬(55296 ≤ c ∧ c < 57344)) :
    lexStrChar1 (escChar c ++ rest) = some (c, rest) := by
  by_cases h34 : c = 34
  · subst h34; rfl
  by_cases h92 : c = 92
  · subst h92; rfl
  by_cases h8 : c = 8
  · subst h8; rfl
  by_cases h9 : c = 9
  · subst h9; rfl
  by_cases h10 : c = 10
  · subst h10; rfl
  by_cases h12 : c = 12
  · subst h12; rfl
  by_cases h13 : c = 13
  · subst h13; rfl
  by_cases hpr : 32 ≤ c ∧ c ≤ 126
  · have he : escChar c = [c] := by
      unfold escChar
      rw [if_neg h34, if_neg h92, if_neg h8, if_neg h9, if_neg h10, if_neg h12, if_neg h13,
        if_pos hpr]
    rw [he]
    show lexStrChar1 (c :: rest) = some (c, rest)
    simp only [lexStrChar1]
    rw [if_neg h92, if_neg h34, if_neg (show ¬(c < 32) by omega)]
  by_cases hbmp : c < 65536
  · have he : escChar c = 92 :: 117 :: hex4 c := by
      unfold escChar
      rw [if_neg h34, if_neg h92, if_neg h8, if_neg h9, if_neg h10, if_neg h12, if_neg h13,
        if_neg hpr, if_pos hbmp]
    rw [he]
    show lexUEsc (hex4 c ++ rest) = some (c, rest)
    rw [lexUEsc, readHex4_hex4 c hbmp rest]
    show (if 55296 ≤ c ∧ c ≤ 56319 then _ else some (c, rest)) = some (c, rest)
    rw [if_neg (by omega)]
  · have hge : 65536 ≤ c := by omega
    rw [escChar_astral c h34 h92 h8 h9 h10 h12 h13 hpr hbmp]
    simp only [List.cons_append, List.append_assoc]
    rw [lexStrChar1_u]
    rw [lexUEsc_pair _ _ (by omega) (by
        have := Nat.mod_lt (c - 65536) (show 0 < 1024 by omega)
        omega) rest]
    have : 65536 + (c - 65536) / 1024 * 1024 + (c - 65536) % 1024 = c := by omega
    rw [this]

theorem lexStr_step (g : Nat) (x : Nat) (t : List Nat) (hx : x ≠ 34) :
    lexStr (g + 1) (x :: t) =
      (match lexStrChar1 (x :: t) with
       | none => none
       | some (ch, r) => (lexStr g r).map (fun p => (ch :: p.1, p.2))) := by
  simp only [lexStr]
  rw [if_neg hx]

theorem escChar_head (c : Nat) : ∃ x t, escChar c = x :: t ∧ x ≠ 34 := by
  unfold escChar
  split_ifs with h1 h2 h3 h4 h5 h6 h7 h8 h9
  · exact ⟨92, _, rfl, by omega⟩
  · exact ⟨92, _, rfl, by omega⟩
  · exact ⟨92, _, rfl, by omega⟩
  · exact ⟨92, _, rfl, by omega⟩
  · exact ⟨92, _, rfl, by omega⟩
  · exact ⟨92, _, rfl, by omega⟩
  · exact ⟨92, _, rfl, by omega⟩
  · exact ⟨c, [], rfl, h1⟩
  · exact ⟨92, _, rfl, by omega⟩
  · exact ⟨92, _, rfl, by omega⟩

theorem lexStr_esc : ∀ (s : List Nat) (f : Nat) (rest : List Nat),
    validStr s = true → s.length + 1 ≤ f →
    lexStr f (escString s ++ 34 :: rest) = some (s, rest) := by
  intro s
  induction s with
  | nil =>
      intro f rest _ hf
      obtain ⟨g, rfl⟩ : ∃ g, f = g + 1 := ⟨f - 1, by omega⟩
      rfl
  | cons c s ih =>
      intro f rest hv hf
      obtain ⟨g, rfl⟩ : ∃ g, f = g + 1 := ⟨f - 1, by omega⟩
      obtain ⟨⟨hlt, hsur⟩, hvs⟩ := validStr_cons c s hv
      have hes : escString (c :: s) = escChar c ++ escString s := by
        simp [escString]
      rw [hes, List.append_assoc]
      obtain ⟨x, t, hxt, hx34⟩ := escChar_head c
      rw [hxt, List.cons_append, lexStr_step g x _ hx34, ← List.cons_append, ← hxt]
      rw [lexStrChar1_esc c _ hlt hsur]
      show (lexStr g (escString s ++ 34 :: rest)).map (fun p => (c :: p.1, p.2)) =
        some (c :: s, rest)
      rw [ih g rest hvs (by simp at hf; omega)]
      rfl

/-! ### Lemmas: number parsing roundtrip -/

theorem takeDigits_append : ∀ ds rest, (∀ c ∈ ds, isDigitCp c = true) → headND rest = true →
    takeDigits (ds ++ rest) = (ds, rest) := by
  intro ds
  induction ds with
  | nil =>
      intro rest _ hr
      cases rest with
      | nil => rfl
      | cons c t =>
          simp only [headND, Bool.not_eq_true'] at hr
          simp only [List.nil_append, takeDigits]
          rw [if_neg (by simp [hr])]
  | cons d ds ih =>
      intro rest hds hr
      simp only [List.cons_append, takeDigits, List.append_eq]
      rw [if_pos (hds d (by simp)), ih rest (fun c hc => hds c (by simp [hc])) hr]

theorem digitsVal_append_one (xs : List Nat) (d : Nat) :
    digitsVal (xs ++ [d]) = digitsVal xs * 10 + (d - 48) := by
  simp [digitsVal, List.foldl_append]

theorem digitsVal_natReprAux : ∀ f n, n < 10 ^ f → digitsVal (natReprAux f n) = n := by
  intro f
  induction f with
  | zero =>
      intro n h
      have : n = 0 := by simpa using h
      subst this
      rfl
  | succ f ih =>
      intro n h
      unfold natReprAux
      split_ifs with h10
      · simp [digitsVal]
      · rw [digitsVal_append_one]
        rw [ih (n / 10) ((Nat.div_lt_iff_lt_mul (by omega : 0 < 10)).mpr
          (by rw [← pow_succ]; exact h))]
        omega

theorem natReprAux_head : ∀ f n, 1 ≤ n → n < 10 ^ f →
    ∃ c ds, natReprAux f n = c :: ds ∧ 49 ≤ c ∧ c ≤ 57 := by
  intro f
  induction f with
  | zero => intro n h1 h2; omega
  | succ f ih =>
      intro n h1 h2
      unfold natReprAux
      split_ifs with h10
      · exact ⟨48 + n, [], rfl, by omega, by omega⟩
      · obtain ⟨c, ds, hds, hc1, hc2⟩ := ih (n / 10) (by omega)
          ((Nat.div_lt_iff_lt_mul (by omega : 0 < 10)).mpr (by rw [← pow_succ]; exact h2))
        exact ⟨c, ds ++ [48 + n % 10], by rw [hds, List.cons_append], hc1, hc2⟩

theorem n_lt_ten_pow (n : Nat) : n < 10 ^ (n + 1) :=
  Nat.lt_of_lt_of_le (Nat.lt_pow_self (by omega) n)
    (Nat.pow_le_pow_right (by omega) (by omega))

theorem natRepr_shape (n : Nat) : ∃ c ds, natRepr n = c :: ds ∧ 48 ≤ c ∧ c ≤ 57 ∧
    (n = 0 → c = 48) ∧ (1 ≤ n → 49 ≤ c) := by
  rcases Nat.eq_zero_or_pos n with rfl | hpos
  · exact ⟨48, [], rfl, by omega, by omega, fun _ => rfl, by omega⟩
  · obtain ⟨c, ds, hds, hc1, hc2⟩ := natReprAux_head (n + 1) n hpos (n_lt_ten_pow n)
    exact ⟨c, ds, hds, by omega, hc2, by omega, fun _ => hc1⟩

theorem parseIntPart_natRepr (n : Nat) (rest : List Nat) (hr : headND rest = true) :
    parseIntPart (natRepr n ++ rest) = some (natRepr n, rest) := by
  rcases Nat.eq_zero_or_pos n with rfl | hpos
  · show parseIntPart (48 :: rest) = some ([48], rest)
    rfl
  · obtain ⟨c, ds, hcds, hc1, hc2⟩ := natReprAux_head (n + 1) n hpos (n_lt_ten_pow n)
    have hnd : natRepr n = c :: ds := hcds
    have hds : ∀ x ∈ ds, isDigitCp x = true := by
      intro x hx
      have hmem : x ∈ natReprAux (n + 1) n := by
        rw [hcds]; simp [hx]
      have := mem_natReprAux_digit (n + 1) n x hmem
      simp only [isDigitCp, Bool.and_eq_true, decide_eq_true_eq]
      omega
    rw [hnd, List.cons_append]
    simp only [parseIntPart]
    rw [if_neg (by omega : ¬(c = 48)), if_pos (⟨by omega, hc2⟩ : 49 ≤ c ∧ c ≤ 57)]
    rw [takeDigits_append ds rest hds hr]

theorem parseFrac_boundary (l : List Nat) (h : numBoundary l = true) : parseFrac l = ([], l) := by
  cases l with
  | nil => rfl
  | cons c t =>
      simp only [numBoundary, Bool.and_eq_true, bne_iff_ne, ne_eq] at h
      simp only [parseFrac]
      rw [if_neg h.1.1.2]

theorem parseExp_boundary (l : List Nat) (h : numBoundary l = true) : parseExp l = ([], l) := by
  cases l with
  | nil => rfl
  | cons c t =>
      simp only [numBoundary, Bool.and_eq_true, bne_iff_ne, ne_eq] at h
      simp only [parseExp]
      rw [if_neg (by
        intro hc
        rcases hc with hc | hc
        · exact h.1.2 hc
        · exact h.2 hc)]

theorem parseNumBody_natRepr (neg : Bool) (n : Nat) (rest : List Nat)
    (hb : numBoundary rest = true) :
    parseNumBody neg (natRepr n ++ rest) =
      some (JVal.int (if neg then -(n : Int) else (n : Int)), rest) := by
  have hnd : headND rest = true := by
    cases rest with
    | nil => rfl
    | cons c t =>
        simp only [numBoundary, Bool.and_eq_true] at hb
        simp only [headND]
        exact hb.1.1.1
  simp only [parseNumBody, parseIntPart_natRepr n rest hnd]
  rw [parseFrac_boundary rest hb]
  simp only []
  rw [parseExp_boundary rest hb]
  simp only []
  rw [if_pos (⟨trivial, trivial⟩ : True ∧ True)]
  rw [show digitsVal (natRepr n) = n from digitsVal_natReprAux (n + 1) n (n_lt_ten_pow n)]

theorem parseNumber_intRepr (z : Int) (rest : List Nat) (hb : numBoundary rest = true) :
    parseNumber (intRepr z ++ rest) = some (JVal.int z, rest) := by
  by_cases hz : z < 0
  · have h1 : intRepr z = 45 :: natRepr (-z).toNat := by
      unfold intRepr; rw [if_pos hz]
    rw [h1, List.cons_append]
    show parseNumBody true (natRepr (-z).toNat ++ rest) = some (JVal.int z, rest)
    rw [parseNumBody_natRepr true _ rest hb]
    show some (JVal.int (-(((-z).toNat : Nat) : Int)), rest) = some (JVal.int z, rest)
    have h2 : -(((-z).toNat : Nat) : Int) = z := by omega
    rw [h2]
  · have hrep : intRepr z = natRepr z.toNat := by
      unfold intRepr; rw [if_neg hz]
    obtain ⟨c, ds, hcds, hc1, hc2, _, _⟩ := natRepr_shape z.toNat
    rw [hrep, hcds, List.cons_append]
    simp only [parseNumber]
    rw [if_neg (by omega : ¬(c = 45))]
    rw [← List.cons_append, ← hcds, parseNumBody_natRepr false _ rest hb]
    show some (JVal.int ((z.toNat : Nat) : Int), rest) = some (JVal.int z, rest)
    have h3 : ((z.toNat : Nat) : Int) = z := by omega
    rw [h3]

/-! ### Lemmas: parsing the serialized state payload -/

theorem escChar_len_pos (c : Nat) : 1 ≤ (escChar c).length := by
  unfold escChar
  split_ifs <;> simp [hex4]

theorem escString_len (s : List Nat) : s.length ≤ (escString s).length := by
  induction s with
  | nil => simp [escString]
  | cons c s ih =>
      have h := escChar_len_pos c
      have he : escString (c :: s) = escChar c ++ escString s := by simp [escString]
      rw [he]
      simp only [List.length_append, List.length_cons]
      omega

theorem lexKeyBound (s T : List Nat) : s.length + 1 ≤ (escString s ++ 34 :: T).length + 1 := by
  have := escString_len s
  simp only [List.length_append, List.length_cons]
  omega

theorem parseValue_quote (g : Nat) (r : List Nat) :
    parseValue (g + 1) (34 :: r) = (lexStr (r.length + 1) r).map (fun p => (JVal.str p.1, p.2)) :=
  rfl

theorem parseValue_obj (g : Nat) (r : List Nat) :
    parseValue (g + 1) (123 :: r) = parseObjRest g r := rfl

theorem parseObjRest_quote (g : Nat) (r : List Nat) :
    parseObjRest (g + 1) (34 :: r) =
      (parseMembers g (34 :: r)).map (fun p => (JVal.obj p.1, p.2)) := rfl

theorem pm_key (g : Nat) (r1 key r2 : List Nat) (h : lexStr (r1.length + 1) r1 = some (key, r2)) :
    parseMembers (g + 1) (34 :: r1) = memberAfterKey g key r2 := by
  have h0 : parseMembers (g + 1) (34 :: r1) =
      (match lexStr (r1.length + 1) r1 with
       | none => none
       | some (key, r2) => memberAfterKey g key r2) := rfl
  rw [h0, h]

theorem mak_colon (g : Nat) (key r3 : List Nat) (v : JVal) (r4 : List Nat)
    (h : parseValue g r3 = some (v, r4)) :
    memberAfterKey (g + 1) key (58 :: r3) = memberAfterValue g key v r4 := by
  have h0 : memberAfterKey (g + 1) key (58 :: r3) =
      (match parseValue g r3 with
       | none => none
       | some (v, r4) => memberAfterValue g key v r4) := rfl
  rw [h0, h]

theorem mav_comma (g : Nat) (key : List Nat) (v : JVal) (r5 : List Nat) :
    memberAfterValue (g + 1) key v (44 :: r5) =
      (parseMembers g (skipWs r5)).map (fun p => ((key, v) :: p.1, p.2)) := rfl

theorem mav_close (g : Nat) (key : List Nat) (v : JVal) (r5 : List Nat) :
    memberAfterValue (g + 1) key v (125 :: r5) = some ([(key, v)], r5) := rfl

theorem skipWs_quote (x : List Nat) : skipWs (34 :: x) = 34 :: x := rfl

theorem parseValue_strLit (g : Nat) (s rest : List Nat) (hs : validStr s = true) :
    parseValue (g + 1) (34 :: (escString s ++ 34 :: rest)) = some (JVal.str s, rest) := by
  rw [parseValue_quote, lexStr_esc s _ rest hs (lexKeyBound s rest)]
  rfl

theorem parseValue_numHead (g c0 : Nat) (T : List Nat) (v : JVal) (r : List Nat)
    (hc : c0 = 45 ∨ 48 ≤ c0 ∧ c0 ≤ 57)
    (hn : parseNumber (c0 :: T) = some (v, r)) :
    parseValue (g + 1) (c0 :: T) = some (v, r) := by
  rcases hc with rfl | ⟨hlo, hhi⟩
  · have h0 : parseValue (g + 1) (45 :: T) =
        (match parseNumber (45 :: T) with
         | some p => some p
         | none =>
             if hasPrefixL (cp "Infinity") T then some (JVal.float (cp "-Infinity"), T.drop 8)
             else none) := rfl
    rw [h0, hn]
  · have h0 : parseValue (g + 1) (c0 :: T) =
        (match parseNumber (c0 :: T) with
         | some p => some p
         | none => none) := by
      interval_cases c0 <;> rfl
    rw [h0, hn]

theorem parseValue_intLit (g : Nat) (z : Int) (rest2 : List Nat)
    (hb : numBoundary rest2 = true) :
    parseValue (g + 1) (intRepr z ++ rest2) = some (JVal.int z, rest2) := by
  have hnum := parseNumber_intRepr z rest2 hb
  by_cases hz : z < 0
  · have h1 : intRepr z = 45 :: natRepr (-z).toNat := by
      unfold intRepr; rw [if_pos hz]
    rw [h1, List.cons_append] at hnum ⊢
    exact parseValue_numHead g 45 _ _ _ (Or.inl rfl) hnum
  · have h1 : intRepr z = natRepr z.toNat := by
      unfold intRepr; rw [if_neg hz]
    obtain ⟨c, ds, hcds, hc1, hc2, _, _⟩ := natRepr_shape z.toNat
    rw [h1, hcds, List.cons_append] at hnum ⊢
    exact parseValue_numHead g c _ _ _ (Or.inr ⟨hc1, hc2⟩) hnum

theorem parseValue_dumps (f : Nat) (P : StatePayload) (rest : List Nat)
    (h1 : validStr P.client_id = true) (h2 : validStr P.phone_number = true) :
    parseValue (f + 12) (dumpsStatePayload P ++ rest) = some (statePayloadJson P, rest) := by
  simp only [dumpsStatePayload, jsonStrLit, List.cons_append, List.nil_append,
    List.append_assoc]
  rw [parseValue_obj, parseObjRest_quote]
  rw [pm_key (f + 9) _ _ _
    (lexStr_esc (cp "client_id") _ _ (by decide) (lexKeyBound _ _))]
  rw [mak_colon (f + 8) _ _ _ _ (parseValue_strLit (f + 7) P.client_id _ h1)]
  rw [mav_comma, skipWs_quote]
  rw [pm_key (f + 6) _ _ _
    (lexStr_esc (cp "phone_number") _ _ (by decide) (lexKeyBound _ _))]
  rw [mak_colon (f + 5) _ _ _ _ (parseValue_strLit (f + 4) P.phone_number _ h2)]
  rw [mav_comma, skipWs_quote]
  rw [pm_key (f + 3) _ _ _
    (lexStr_esc (cp "ts") _ _ (by decide) (lexKeyBound _ _))]
  rw [mak_colon (f + 2) _ _ _ _ (parseValue_intLit (f + 1) P.ts (125 :: rest) rfl)]
  rw [mav_close]
  rfl

/-! ### Lemmas: state codec roundtrip -/

theorem b64Encode_all_lt_128 : ∀ n l, l.length ≤ n → ∀ x ∈ b64Encode l, x < 128 := by
  intro n
  induction n with
  | zero =>
      intro l hl x hx
      rcases l with _ | ⟨a, t⟩
      · simp [b64Encode] at hx
      · simp at hl
  | succ n ih =>
      intro l hl x hx
      rcases l with _ | ⟨a, _ | ⟨b, _ | ⟨c, rest⟩⟩⟩
      · simp [b64Encode] at hx
      · rw [show b64Encode [a] =
            [b64EncDigit (a / 4), b64EncDigit (a % 4 * 16), 61, 61] from rfl] at hx
        simp only [List.mem_cons, List.not_mem_nil, or_false] at hx
        rcases hx with rfl | rfl | rfl | rfl
        · exact b64EncDigit_lt_128 _
        · exact b64EncDigit_lt_128 _
        · omega
        · omega
      · rw [show b64Encode [a, b] =
            [b64EncDigit (a / 4), b64EncDigit (a % 4 * 16 + b / 16),
             b64EncDigit (b % 16 * 4), 61] from rfl] at hx
        simp only [List.mem_cons, List.not_mem_nil, or_false] at hx
        rcases hx with rfl | rfl | rfl | rfl
        · exact b64EncDigit_lt_128 _
        · exact b64EncDigit_lt_128 _
        · exact b64EncDigit_lt_128 _
        · omega
      · rw [show b64Encode (a :: b :: c :: rest) =
            b64EncDigit (a / 4) :: b64EncDigit (a % 4 * 16 + b / 16) ::
            b64EncDigit (b % 16 * 4 + c / 64) :: b64EncDigit (c % 64) ::
            b64Encode rest from rfl] at hx
        simp only [List.mem_cons] at hx
        rcases hx with rfl | rfl | rfl | rfl | hx
        · exact b64EncDigit_lt_128 _
        · exact b64EncDigit_lt_128 _
        · exact b64EncDigit_lt_128 _
        · exact b64EncDigit_lt_128 _
        · exact ih rest (by simp at hl; omega) x hx

theorem jsonLoads_dumps (P : StatePayload) (h1 : validStr P.client_id = true)
    (h2 : validStr P.phone_number = true) :
    jsonLoads (dumpsStatePayload P) = some (statePayloadJson P) := by
  have hlen : 3 ≤ (dumpsStatePayload P).length := by
    simp only [dumpsStatePayload, jsonStrLit, List.length_append, List.length_cons,
      List.length_singleton]
    omega
  obtain ⟨f, hf⟩ : ∃ f, 3 * (dumpsStatePayload P).length + 4 = f + 12 :=
    ⟨3 * (dumpsStatePayload P).length + 4 - 12, by omega⟩
  have hP : parseValue (3 * (dumpsStatePayload P).length + 4) (dumpsStatePayload P) =
      some (statePayloadJson P, []) := by
    rw [hf]
    have h := parseValue_dumps f P [] h1 h2
    rwa [List.append_nil] at h
  unfold jsonLoads
  rw [hP]
  rfl

set_option maxHeartbeats 1000000 in
theorem decode_encode_state (P : StatePayload) (h1 : validStr P.client_id = true)
    (h2 : validStr P.phone_number = true) :
    decode_state (encode_state P) = statePayloadJson P := by
  have hd := dumps_all_lt_128 P
  have hb : ∀ x ∈ b64Encode (dumpsStatePayload P), x < 128 :=
    b64Encode_all_lt_128 (dumpsStatePayload P).length (dumpsStatePayload P) (Nat.le_refl _)
  have hp : decodeStatePipeline (encode_state P) = some (statePayloadJson P) := by
    unfold decodeStatePipeline encode_state
    rw [utf8Encode_ascii _ hb, Option.some_bind]
    rw [b64Encode_decode _ (fun x hx => by have := hd x hx; omega), Option.some_bind]
    rw [utf8Decode_ascii _ hd, Option.some_bind]
    rw [jsonLoads_dumps P h1 h2]
  unfold decode_state
  rw [hp]

/-! ### Lemmas: callback handler control flow -/

theorem jobber_callback_some (cfg : Config) (tr : HttpResp) (sp : PostResult)
    (c : List Nat) (stq : Option (List Nat)) :
    jobber_callback cfg tr sp (some c) stq =
      if c = [] then ⟨HandlerResult.httpError 400 (cp "Missing code"), [], 0⟩
      else callbackBody cfg tr sp c stq := rfl

theorem callback_phoneRequired (cfg : Config) (tr : HttpResp) (sp : PostResult)
    (c : List Nat) (stq : Option (List Nat)) (kvs : List (List Nat × JVal))
    (hc : c ≠ [])
    (hpay : callbackStatePayload stq = JVal.obj kvs)
    (hid : (truthyOpt (dictGet kvs (cp "phone_number")) &&
            truthyOpt (dictGet kvs (cp "client_id"))) = false) :
    jobber_callback cfg tr sp (some c) stq =
      ⟨HandlerResult.redirect 307 phoneRequiredUrl, [], 0⟩ := by
  rw [jobber_callback_some, if_neg hc]
  unfold callbackBody
  rw [hpay]
  show callbackWithPayload cfg tr sp c kvs = _
  unfold callbackWithPayload
  rw [if_pos (by
    cases ha : truthyOpt (dictGet kvs (cp "phone_number")) <;>
      cases hb : truthyOpt (dictGet kvs (cp "client_id")) <;>
      simp_all)]

theorem callback_reaches_exchange (cfg : Config) (tr : HttpResp) (sp : PostResult)
    (c : List Nat) (stq : Option (List Nat)) (kvs : List (List Nat × JVal))
    (hc : c ≠ [])
    (hpay : callbackStatePayload stq = JVal.obj kvs)
    (hphone : truthyOpt (dictGet kvs (cp "phone_number")) = true)
    (hcid : truthyOpt (dictGet kvs (cp "client_id")) = true) :
    jobber_callback cfg tr sp (some c) stq = callbackExchange cfg tr sp c := by
  rw [jobber_callback_some, if_neg hc]
  unfold callbackBody
  rw [hpay]
  show callbackWithPayload cfg tr sp c kvs = _
  unfold callbackWithPayload
  rw [hphone, hcid]
  rfl

theorem callbackExchange_non200 (cfg : Config) (tr : HttpResp) (sp : PostResult)
    (c : List Nat) (h : tr.status ≠ 200) :
    callbackExchange cfg tr sp c =
      ⟨HandlerResult.httpError 400 (cp "Token exchange failed: " ++ tr.text),
       [tokenReq cfg c], 0⟩ := by
  unfold callbackExchange
  rw [if_pos h]

theorem callbackExchange_200 (cfg : Config) (tr : HttpResp) (sp : PostResult)
    (c : List Nat) (d : List (List Nat × JVal))
    (h200 : tr.status = 200)
    (hj : jsonLoads tr.text = some (JVal.obj d)) :
    callbackExchange cfg tr sp c = exchangeWithData cfg sp c d := by
  unfold callbackExchange
  rw [if_neg (fun hne => hne h200), hj]

theorem truthyOpt_str (s : List Nat) (h : s ≠ []) :
    truthyOpt (some (JVal.str s)) = true := by
  simp [truthyOpt, truthy, h]

theorem exchangeWithData_token (cfg : Config) (sp : PostResult) (c : List Nat)
    (d : List (List Nat × JVal)) (a : JVal)
    (ha : dictGet d (cp "access_token") = some a)
    (hadd : addableToFloat ((dictGet d (cp "expires_in")).getD (JVal.int 3600)) = true) :
    exchangeWithData cfg sp c d =
      (if store_jobber_tokens_for_client cfg.n8nUrl sp then
        ⟨HandlerResult.redirect 307 successUrl, [tokenReq cfg c], 1⟩
      else ⟨HandlerResult.redirect 307 phoneNotFoundUrl, [tokenReq cfg c], 1⟩) := by
  unfold exchangeWithData
  rw [ha]
  show (if addableToFloat ((dictGet d (cp "expires_in")).getD (JVal.int 3600)) then _ else _) = _
  rw [hadd]
  rfl

theorem exchangeWithData_typeError (cfg : Config) (sp : PostResult) (c : List Nat)
    (d : List (List Nat × JVal)) (a : JVal)
    (ha : dictGet d (cp "access_token") = some a)
    (hadd : addableToFloat ((dictGet d (cp "expires_in")).getD (JVal.int 3600)) = false) :
    exchangeWithData cfg sp c d =
      ⟨HandlerResult.serverError, [tokenReq cfg c], 0⟩ := by
  unfold exchangeWithData
  rw [ha]
  show (if addableToFloat ((dictGet d (cp "expires_in")).getD (JVal.int 3600)) then _ else _) = _
  rw [hadd]
  rfl

theorem callbackExchange_tokenCalls (cfg : Config) (tr : HttpResp) (sp : PostResult)
    (c : List Nat) :
    (callbackExchange cfg tr sp c).tokenCalls = [tokenReq cfg c] := by
  by_cases h : tr.status ≠ 200
  · rw [callbackExchange_non200 cfg tr sp c h]
  · unfold callbackExchange
    rw [if_neg h]
    rcases hj : jsonLoads tr.text with _ | v
    · rfl
    · rcases v with _ | b | n | raw | s | l | d
      · rfl
      · rfl
      · rfl
      · rfl
      · rfl
      · rfl
      · show (exchangeWithData cfg sp c d).tokenCalls = [tokenReq cfg c]
        unfold exchangeWithData
        rcases ha : dictGet d (cp "access_token") with _ | a
        · rfl
        · show (if addableToFloat ((dictGet d (cp "expires_in")).getD (JVal.int 3600)) then
              if store_jobber_tokens_for_client cfg.n8nUrl sp then
                (⟨HandlerResult.redirect 307 successUrl, [tokenReq cfg c], 1⟩ : CallbackOutcome)
              else ⟨HandlerResult.redirect 307 phoneNotFoundUrl, [tokenReq cfg c], 1⟩
            else ⟨HandlerResult.serverError, [tokenReq cfg c], 0⟩).tokenCalls =
            [tokenReq cfg c]
          split
          · split <;> rfl
          · rfl

/-! ### Lemmas: substring containment and urlencode -/

theorem hasPrefixL_self_append : ∀ n post : List Nat, hasPrefixL n (n ++ post) = true := by
  intro n
  induction n with
  | nil => intro post; rfl
  | cons a as ih =>
      intro post
      show (a == a && hasPrefixL as (as ++ post)) = true
      rw [ih post]
      simp

theorem containsSeq_here (n post : List Nat) : containsSeq n (n ++ post) = true := by
  cases n with
  | nil => cases post <;> simp [containsSeq, hasPrefixL]
  | cons a as =>
      show (hasPrefixL (a :: as) ((a :: as) ++ post) || containsSeq (a :: as) (as ++ post)) = true
      rw [hasPrefixL_self_append]
      simp

theorem containsSeq_cons (n : List Nat) (c : Nat) (rest : List Nat)
    (h : containsSeq n rest = true) : containsSeq n (c :: rest) = true := by
  simp only [containsSeq, h, Bool.or_true]

theorem containsSeq_append_left (n pre rest : List Nat) (h : containsSeq n rest = true) :
    containsSeq n (pre ++ rest) = true := by
  induction pre with
  | nil => simpa
  | cons c t ih =>
      simp only [List.cons_append]
      exact containsSeq_cons n c _ ih

theorem containsSeq_at (n pre post hay : List Nat) (hhay : hay = pre ++ (n ++ post)) :
    containsSeq n hay = true := by
  subst hhay
  exact containsSeq_append_left n pre _ (containsSeq_here n post)

theorem quotePlusChar_safe (c : Nat) (h : quoteSafe c = true) : quotePlusChar c = [c] := by
  unfold quotePlusChar
  rw [if_pos h]

theorem quotePlus_safe (s : List Nat) (h : ∀ c ∈ s, quoteSafe c = true) : quotePlus s = s := by
  induction s with
  | nil => rfl
  | cons c t ih =>
      have he : quotePlus (c :: t) = quotePlusChar c ++ quotePlus t := by simp [quotePlus]
      rw [he, quotePlusChar_safe c (h c (by simp)), ih (fun x hx => h x (by simp [hx]))]
      rfl

theorem quotePlusChar_ne_nil (c : Nat) (h : c < 128) : quotePlusChar c ≠ [] := by
  unfold quotePlusChar
  split_ifs with h1 h2
  · simp
  · simp
  · rw [show utf8EncodeChar c = some [c] from by unfold utf8EncodeChar; rw [if_pos h]]
    simp [pctByte]

theorem quotePlus_ne_nil (s : List Nat) (hne : s ≠ []) (h : ∀ c ∈ s, c < 128) :
    quotePlus s ≠ [] := by
  cases s with
  | nil => exact absurd rfl hne
  | cons c t =>
      have he : quotePlus (c :: t) = quotePlusChar c ++ quotePlus t := by simp [quotePlus]
      rw [he]
      have := quotePlusChar_ne_nil c (h c (by simp))
      intro hx
      rcases List.append_eq_nil.mp hx with ⟨h1, _⟩
      exact this h1

theorem dumps_head (P : StatePayload) : ∃ t, dumpsStatePayload P = 123 :: t :=
  ⟨_, rfl⟩

theorem encode_state_ne_nil (P : StatePayload) : encode_state P ≠ [] := by
  obtain ⟨t, ht⟩ := dumps_head P
  unfold encode_state
  rw [ht]
  rcases t with _ | ⟨b, _ | ⟨c2, r⟩⟩ <;> simp [b64Encode]

theorem encode_state_all_lt_128 (P : StatePayload) : ∀ x ∈ encode_state P, x < 128 :=
  b64Encode_all_lt_128 (dumpsStatePayload P).length (dumpsStatePayload P) (Nat.le_refl _)

/-! ### Lemmas: jobber_start -/

theorem jobber_start_some (cfg : Config) (lookup : List Nat → Option (List Nat)) (now : Int)
    (p : List Nat) :
    jobber_start cfg lookup now (some p) =
      if p = [] then StartResult.httpError 400 (cp "phone_number required")
      else
        match lookup p with
        | none => StartResult.httpError 404 (cp "Client not found for this phone number")
        | some w =>
            if w = [] then StartResult.httpError 404 (cp "Client not found for this phone number")
            else
              StartResult.ok (JOBBER_AUTH_URL ++ [63] ++
                startParamsQuery cfg (encode_state ⟨w, p, now⟩)) := rfl

theorem jobber_start_found (cfg : Config) (lookup : List Nat → Option (List Nat)) (now : Int)
    (p w : List Nat) (hp : p ≠ []) (hl : lookup p = some w) (hw : w ≠ []) :
    jobber_start cfg lookup now (some p) =
      StartResult.ok (JOBBER_AUTH_URL ++ [63] ++
        startParamsQuery cfg (encode_state ⟨w, p, now⟩)) := by
  rw [jobber_start_some, if_neg hp, hl]
  show (if w = [] then _ else _) = _
  rw [if_neg hw]

theorem startParamsQuery_fused (cfg : Config) (st : List Nat) :
    startParamsQuery cfg st =
      cp "response_type=code&client_id=" ++ (quotePlus cfg.clientId ++
        (cp "&redirect_uri=" ++ (quotePlus cfg.redirectUri ++
          (cp "&scope=clients%3Aread+clients%3Awrite&state=" ++ quotePlus st)))) := by
  unfold startParamsQuery
  simp only [List.append_assoc]
  rfl

theorem start_url_has_response_type (cfg : Config) (st : List Nat) :
    containsSeq (cp "response_type=code")
      (JOBBER_AUTH_URL ++ [63] ++ startParamsQuery cfg st) = true := by
  refine containsSeq_at _ (JOBBER_AUTH_URL ++ [63])
    (cp "&client_id=" ++ (quotePlus cfg.clientId ++
      (cp "&redirect_uri=" ++ (quotePlus cfg.redirectUri ++
        (cp "&scope=clients%3Aread+clients%3Awrite&state=" ++ quotePlus st))))) _ ?_
  rw [startParamsQuery_fused]
  simp only [List.append_assoc]
  rfl

theorem start_url_has_client_id (cfg : Config) (st : List Nat) :
    containsSeq (cp "client_id=" ++ quotePlus cfg.clientId)
      (JOBBER_AUTH_URL ++ [63] ++ startParamsQuery cfg st) = true := by
  refine containsSeq_at _ (JOBBER_AUTH_URL ++ (63 :: cp "response_type=code&"))
    (cp "&redirect_uri=" ++ (quotePlus cfg.redirectUri ++
      (cp "&scope=clients%3Aread+clients%3Awrite&state=" ++ quotePlus st))) _ ?_
  rw [startParamsQuery_fused]
  simp only [List.append_assoc]
  rfl

theorem start_url_has_raw_client_id (cfg : Config) (st : List Nat)
    (hsafe : ∀ c ∈ cfg.clientId, quoteSafe c = true) :
    containsSeq cfg.clientId
      (JOBBER_AUTH_URL ++ [63] ++ startParamsQuery cfg st) = true := by
  refine containsSeq_at _ (JOBBER_AUTH_URL ++ (63 :: cp "response_type=code&client_id="))
    (cp "&redirect_uri=" ++ (quotePlus cfg.redirectUri ++
      (cp "&scope=clients%3Aread+clients%3Awrite&state=" ++ quotePlus st))) _ ?_
  rw [startParamsQuery_fused, quotePlus_safe cfg.clientId hsafe]
  simp only [List.append_assoc]
  rfl

theorem start_url_has_state (cfg : Config) (st : List Nat) :
    containsSeq (cp "&state=" ++ quotePlus st)
      (JOBBER_AUTH_URL ++ [63] ++ startParamsQuery cfg st) = true := by
  refine containsSeq_at _
    (JOBBER_AUTH_URL ++ (63 :: cp "response_type=code&client_id=") ++
      (quotePlus cfg.clientId ++
        (cp "&redirect_uri=" ++ (quotePlus cfg.redirectUri ++
          cp "&scope=clients%3Aread+clients%3Awrite"))))
    [] _ ?_
  rw [List.append_nil, startParamsQuery_fused]
  simp only [List.append_assoc]
  rfl

/-! ### Lemmas: sink forwarder verdict -/

theorem store_unset (post : PostResult) : store_jobber_tokens_for_client none post = true := rfl

theorem store_empty (post : PostResult) :
    store_jobber_tokens_for_client (some []) post = true := rfl

theorem store_exn (u : List Nat) (hu : u ≠ []) :
    store_jobber_tokens_for_client (some u) PostResult.exn = false := by
  show (if u = [] then true else false) = false
  rw [if_neg hu]

theorem store_resp (u : List Nat) (hu : u ≠ []) (r : HttpResp) :
    store_jobber_tokens_for_client (some u) (PostResult.resp r) = true ↔
      (200 ≤ r.status ∧ r.status < 300 ∧ bodyHasSuccess r.text = true) := by
  show (if u = [] then true
    else decide (200 ≤ r.status) && decide (r.status < 300) && bodyHasSuccess r.text) = true ↔ _
  rw [if_neg hu]
  simp [Bool.and_eq_true, decide_eq_true_eq, and_assoc]

/-! ### Claims -/

/-- C1, counterexample: a callback with a code but no state parameter does
not return HTTP 400 as the claim states; the handler answers with a 307
redirect to the phone-required page (and indeed never calls the token
endpoint). -/
theorem C1_counterexample :
    isHttp400 (jobber_callback cfgEx tokRespEx sinkOkEx (some (cp "X")) none).result = false ∧
    (jobber_callback cfgEx tokRespEx sinkOkEx (some (cp "X")) none).result =
      HandlerResult.redirect 307 phoneRequiredUrl ∧
    (jobber_callback cfgEx tokRespEx sinkOkEx (some (cp "X")) none).tokenCalls = [] := by
  decide

/-- C1 (amended): for every callback request with a truthy code whose
state parameter is missing or decodes to a dictionary without a truthy
phone_number or client_id, the handler responds with a 307 redirect to
the phone-required page and makes no call to the token endpoint (and no
sink forward). -/
theorem C1_theorem (cfg : Config) (tr : HttpResp) (sp : PostResult) (c : List Nat)
    (stq : Option (List Nat)) (kvs : List (List Nat × JVal))
    (hc : c ≠ [])
    (hpay : callbackStatePayload stq = JVal.obj kvs)
    (hid : (truthyOpt (dictGet kvs (cp "phone_number")) &&
            truthyOpt (dictGet kvs (cp "client_id"))) = false) :
    jobber_callback cfg tr sp (some c) stq =
      ⟨HandlerResult.redirect 307 phoneRequiredUrl, [], 0⟩ :=
  callback_phoneRequired cfg tr sp c stq kvs hc hpay hid

/-- C1 witness: the amended statement evaluated on a concrete request
with a code and no state. -/
theorem C1_theorem_witness :
    jobber_callback cfgEx tokRespEx sinkOkEx (some (cp "X")) none =
      ⟨HandlerResult.redirect 307 phoneRequiredUrl, [], 0⟩ :=
  C1_theorem cfgEx tokRespEx sinkOkEx (cp "X") none [] (by decide) rfl rfl

/-- C2: for every valid StatePayload (strings of Unicode scalar values
and an integer timestamp), decoding the result of encoding it yields
exactly the payload dictionary: decode_state (encode_state P) returns the
dictionary with client_id, phone_number and ts bound to the original
values. -/
theorem C2_theorem (P : StatePayload) (h1 : validStr P.client_id = true)
    (h2 : validStr P.phone_number = true) :
    decode_state (encode_state P) = statePayloadJson P :=
  decode_encode_state P h1 h2

/-- C2 witness: the roundtrip evaluated on the concrete test payload. -/
theorem C2_theorem_witness :
    validStr (cp "test_client_1") = true ∧ validStr (cp "12185551234") = true ∧
    decode_state (encode_state ⟨cp "test_client_1", cp "12185551234", 1700000000⟩) =
      statePayloadJson ⟨cp "test_client_1", cp "12185551234", 1700000000⟩ :=
  ⟨by decide, by decide,
   C2_theorem ⟨cp "test_client_1", cp "12185551234", 1700000000⟩ (by decide) (by decide)⟩

/-- C3, counterexample: with no sink endpoint configured the claim
requires a failure verdict (its condition (a) fails), but the code
returns the success verdict True even when the post oracle would have
raised. -/
theorem C3_counterexample :
    store_jobber_tokens_for_client none PostResult.exn = true ∧
    (none : Option (List Nat)).isSome = false :=
  ⟨rfl, rfl⟩

/-- C3 (amended): the verdict is success iff the endpoint is unconfigured
(unset or empty, the permissive mode), or the response has a 2xx status
and its stripped, lowercased body contains the substring success; with a
configured endpoint, a transport exception or a non-2xx status or a
missing marker each yield the failure verdict. -/
theorem C3_theorem (u : List Nat) (post : PostResult) (r : HttpResp) (hu : u ≠ []) :
    store_jobber_tokens_for_client none post = true ∧
    store_jobber_tokens_for_client (some []) post = true ∧
    store_jobber_tokens_for_client (some u) PostResult.exn = false ∧
    (store_jobber_tokens_for_client (some u) (PostResult.resp r) = true ↔
      (200 ≤ r.status ∧ r.status < 300 ∧ bodyHasSuccess r.text = true)) :=
  ⟨store_unset post, store_empty post, store_exn u hu, store_resp u hu r⟩

/-- C3 witness: the amended statement evaluated on a concrete endpoint,
a success response and a transport exception. -/
theorem C3_theorem_witness :
    store_jobber_tokens_for_client (some (cp "https://n8n.example.org/webhook"))
      (PostResult.resp ⟨200, cp "ok success"⟩) = true ∧
    store_jobber_tokens_for_client (some (cp "https://n8n.example.org/webhook"))
      PostResult.exn = false := by
  have h := C3_theorem (cp "https://n8n.example.org/webhook") PostResult.exn
    ⟨200, cp "ok success"⟩ (by decide)
  exact ⟨h.2.2.2.mpr ⟨by decide, by decide, by decide⟩, h.2.2.1⟩

/-- C4, counterexample: the end-to-end success path does not answer with
a 302 redirect as the claim states; the handler returns the framework
default redirect status 307 to the success URL. -/
theorem C4_counterexample :
    (jobber_callback cfgEx tokRespEx sinkOkEx (some (cp "X")) (some stateEx)).result =
      HandlerResult.redirect 307 successUrl ∧
    redirectStatus (jobber_callback cfgEx tokRespEx sinkOkEx
      (some (cp "X")) (some stateEx)).result ≠ some 302 := by
  decide

/-- C4 (amended): for every callback request with a truthy code and a
state payload carrying a nonempty string phone number and client id, if
the token exchange answers 200 with a JSON object containing access_token
and an integer expires_in and the sink endpoint is configured, then a
sink response of status 200 whose body contains the success marker ends
the handler in a 307 redirect (the framework default, not 302) to the
success URL, and a sink response of status 200 with body Client number
not found. ends it in a 307 redirect to the phone-not-found URL. -/
theorem C4_theorem (cfg : Config) (tr : HttpResp) (c : List Nat)
    (stq : Option (List Nat)) (kvs d : List (List Nat × JVal))
    (p w : List Nat) (a : JVal) (n : Int) (u : List Nat)
    (hc : c ≠ [])
    (hpay : callbackStatePayload stq = JVal.obj kvs)
    (hphone : dictGet kvs (cp "phone_number") = some (JVal.str p)) (hp : p ≠ [])
    (hcid : dictGet kvs (cp "client_id") = some (JVal.str w)) (hw : w ≠ [])
    (h200 : tr.status = 200)
    (hj : jsonLoads tr.text = some (JVal.obj d))
    (ha : dictGet d (cp "access_token") = some a)
    (he : dictGet d (cp "expires_in") = some (JVal.int n))
    (hn8n : cfg.n8nUrl = some u) (hu : u ≠ []) :
    (∀ r : HttpResp, r.status = 200 → bodyHasSuccess r.text = true →
      (jobber_callback cfg tr (PostResult.resp r) (some c) stq).result =
        HandlerResult.redirect 307 successUrl) ∧
    (∀ r : HttpResp, r.status = 200 → r.text = cp "Client number not found." →
      (jobber_callback cfg tr (PostResult.resp r) (some c) stq).result =
        HandlerResult.redirect 307 phoneNotFoundUrl) := by
  have hpt : truthyOpt (dictGet kvs (cp "phone_number")) = true := by
    rw [hphone]; exact truthyOpt_str p hp
  have hct : truthyOpt (dictGet kvs (cp "client_id")) = true := by
    rw [hcid]; exact truthyOpt_str w hw
  have hadd : addableToFloat ((dictGet d (cp "expires_in")).getD (JVal.int 3600)) = true := by
    rw [he]; rfl
  constructor
  · intro r hr hsucc
    rw [callback_reaches_exchange cfg tr (PostResult.resp r) c stq kvs hc hpay hpt hct,
        callbackExchange_200 cfg tr (PostResult.resp r) c d h200 hj,
        exchangeWithData_token cfg (PostResult.resp r) c d a ha hadd, hn8n,
        (store_resp u hu r).mpr ⟨by omega, by omega, hsucc⟩]
    rfl
  · intro r hr htext
    have hst : store_jobber_tokens_for_client (some u) (PostResult.resp r) = false := by
      cases hb : store_jobber_tokens_for_client (some u) (PostResult.resp r)
      · rfl
      · obtain ⟨-, -, hmark⟩ := (store_resp u hu r).mp hb
        rw [htext] at hmark
        exact absurd hmark (by decide)
    rw [callback_reaches_exchange cfg tr (PostResult.resp r) c stq kvs hc hpay hpt hct,
        callbackExchange_200 cfg tr (PostResult.resp r) c d h200 hj,
        exchangeWithData_token cfg (PostResult.resp r) c d a ha hadd, hn8n, hst]
    rfl

/-- C4 witness: the amended statement evaluated on the concrete fixture
(code X, encoded test-payload state, concrete 200 token response) for
both sink bodies. -/
theorem C4_theorem_witness :
    (jobber_callback cfgEx tokRespEx sinkOkEx (some (cp "X")) (some stateEx)).result =
      HandlerResult.redirect 307 successUrl ∧
    (jobber_callback cfgEx tokRespEx sinkNotFoundEx (some (cp "X")) (some stateEx)).result =
      HandlerResult.redirect 307 phoneNotFoundUrl := by
  obtain ⟨hA, hB⟩ := C4_theorem cfgEx tokRespEx (cp "X") (some stateEx)
    [(cp "client_id", JVal.str (cp "test_client_1")),
     (cp "phone_number", JVal.str (cp "12185551234")),
     (cp "ts", JVal.int 1700000000)]
    [(cp "access_token", JVal.str (cp "tok123")),
     (cp "refresh_token", JVal.str (cp "ref456")),
     (cp "expires_in", JVal.int 3600)]
    (cp "12185551234") (cp "test_client_1") (JVal.str (cp "tok123")) 3600
    (cp "https://n8n.example.org/webhook/jobber-tokens")
    (by decide) rfl rfl (by decide) rfl (by decide) rfl rfl rfl rfl rfl (by decide)
  exact ⟨hA ⟨200, cp "ok success"⟩ rfl (by decide),
         hB ⟨200, cp "Client number not found."⟩ rfl rfl⟩

/-- C5: on every callback that reaches the exchange step (truthy code,
a state payload carrying a nonempty string phone number and client id),
the handler makes exactly one token-endpoint call carrying grant type
authorization_code, the code, client credentials and redirect URI; and
when the token endpoint answers with a non-2xx status the handler
returns HTTP 400 with detail Token exchange failed: followed by the
upstream body, forwarding nothing to the sink. -/
theorem C5_theorem (cfg : Config) (tr : HttpResp) (sp : PostResult) (c : List Nat)
    (stq : Option (List Nat)) (kvs : List (List Nat × JVal)) (p w : List Nat)
    (hc : c ≠ [])
    (hpay : callbackStatePayload stq = JVal.obj kvs)
    (hphone : dictGet kvs (cp "phone_number") = some (JVal.str p)) (hp : p ≠ [])
    (hcid : dictGet kvs (cp "client_id") = some (JVal.str w)) (hw : w ≠ []) :
    (jobber_callback cfg tr sp (some c) stq).tokenCalls = [tokenReq cfg c] ∧
    (¬(200 ≤ tr.status ∧ tr.status < 300) →
      (jobber_callback cfg tr sp (some c) stq).result =
        HandlerResult.httpError 400 (cp "Token exchange failed: " ++ tr.text) ∧
      (jobber_callback cfg tr sp (some c) stq).sinkForwards = 0) := by
  have hpt : truthyOpt (dictGet kvs (cp "phone_number")) = true := by
    rw [hphone]; exact truthyOpt_str p hp
  have hct : truthyOpt (dictGet kvs (cp "client_id")) = true := by
    rw [hcid]; exact truthyOpt_str w hw
  have hre := callback_reaches_exchange cfg tr sp c stq kvs hc hpay hpt hct
  refine ⟨by rw [hre]; exact callbackExchange_tokenCalls cfg tr sp c, ?_⟩
  intro hbad
  have hne : tr.status ≠ 200 := by omega
  rw [hre, callbackExchange_non200 cfg tr sp c hne]
  exact ⟨rfl, rfl⟩

/-- C5 witness: a concrete callback whose token endpoint answers 401. -/
theorem C5_theorem_witness :
    (jobber_callback cfgEx ⟨401, cp "bad"⟩ sinkOkEx (some (cp "X"))
      (some stateEx)).tokenCalls = [tokenReq cfgEx (cp "X")] ∧
    (jobber_callback cfgEx ⟨401, cp "bad"⟩ sinkOkEx (some (cp "X"))
      (some stateEx)).result =
      HandlerResult.httpError 400 (cp "Token exchange failed: " ++ cp "bad") ∧
    (jobber_callback cfgEx ⟨401, cp "bad"⟩ sinkOkEx (some (cp "X"))
      (some stateEx)).sinkForwards = 0 := by
  obtain ⟨h1, h2⟩ := C5_theorem cfgEx ⟨401, cp "bad"⟩ sinkOkEx (cp "X") (some stateEx)
    [(cp "client_id", JVal.str (cp "test_client_1")),
     (cp "phone_number", JVal.str (cp "12185551234")),
     (cp "ts", JVal.int 1700000000)]
    (cp "12185551234") (cp "test_client_1")
    (by decide) rfl rfl (by decide) rfl (by decide)
  exact ⟨h1, (h2 (by decide)).1, (h2 (by decide)).2⟩

/-- C6: the start handler answers 400 phone_number required on a missing
or empty phone number, 404 Client not found for this phone number when
the lookup is falsy, and otherwise a URL containing response_type=code,
the configured client id (as the client_id query value, and verbatim
when the configured id is URL-safe) and a non-empty state parameter. -/
theorem C6_theorem (cfg : Config) (lookup : List Nat → Option (List Nat)) (now : Int) :
    jobber_start cfg lookup now none =
      StartResult.httpError 400 (cp "phone_number required") ∧
    jobber_start cfg lookup now (some []) =
      StartResult.httpError 400 (cp "phone_number required") ∧
    (∀ p, p ≠ [] → lookup p = none →
      jobber_start cfg lookup now (some p) =
        StartResult.httpError 404 (cp "Client not found for this phone number")) ∧
    (∀ p w, p ≠ [] → lookup p = some w → w ≠ [] →
      ∃ url, jobber_start cfg lookup now (some p) = StartResult.ok url ∧
        containsSeq (cp "response_type=code") url = true ∧
        containsSeq (cp "client_id=" ++ quotePlus cfg.clientId) url = true ∧
        ((∀ c ∈ cfg.clientId, quoteSafe c = true) → containsSeq cfg.clientId url = true) ∧
        (∃ sv, sv ≠ [] ∧ containsSeq (cp "&state=" ++ sv) url = true)) := by
  refine ⟨rfl, by rw [jobber_start_some, if_pos rfl], ?_, ?_⟩
  · intro p hp hl
    rw [jobber_start_some, if_neg hp, hl]
  · intro p w hp hl hw
    refine ⟨JOBBER_AUTH_URL ++ [63] ++ startParamsQuery cfg (encode_state ⟨w, p, now⟩),
      jobber_start_found cfg lookup now p w hp hl hw,
      start_url_has_response_type cfg _,
      start_url_has_client_id cfg _,
      fun hsafe => start_url_has_raw_client_id cfg _ hsafe,
      quotePlus (encode_state ⟨w, p, now⟩),
      quotePlus_ne_nil _ (encode_state_ne_nil _) (encode_state_all_lt_128 _),
      start_url_has_state cfg _⟩

/-- C6 witness: the start handler evaluated with the concrete
configuration and the source's stub lookup, on a missing body and on the
test phone number. -/
theorem C6_theorem_witness :
    jobber_start cfgEx get_william_client_id_by_phone 1700000000 none =
      StartResult.httpError 400 (cp "phone_number required") ∧
    (∃ url, jobber_start cfgEx get_william_client_id_by_phone 1700000000
        (some (cp "12185551234")) = StartResult.ok url ∧
      containsSeq (cp "response_type=code") url = true ∧
      containsSeq (cp "client_id=" ++ quotePlus cfgEx.clientId) url = true ∧
      ((∀ c ∈ cfgEx.clientId, quoteSafe c = true) → containsSeq cfgEx.clientId url = true) ∧
      (∃ sv, sv ≠ [] ∧ containsSeq (cp "&state=" ++ sv) url = true)) :=
  ⟨(C6_theorem cfgEx get_william_client_id_by_phone 1700000000).1,
   (C6_theorem cfgEx get_william_client_id_by_phone 1700000000).2.2.2
     (cp "12185551234") (cp "test_client_1") (by decide) rfl (by decide)⟩

/-- C7: the decoder performs no integrity verification: any URL-safe
base64 encoding of bytes that decode (as UTF-8) to a JSON document is
accepted, and decode_state returns the parsed payload, whoever produced
the token. -/
theorem C7_theorem (bs txt : List Nat) (v : JVal)
    (hb : ∀ x ∈ bs, x < 256)
    (hdec : utf8Decode bs = some txt)
    (hj : jsonLoads txt = some v) :
    decode_state (b64Encode bs) = v := by
  have hp : decodeStatePipeline (b64Encode bs) = some v := by
    unfold decodeStatePipeline
    rw [utf8Encode_ascii _ (b64Encode_all_lt_128 bs.length bs (Nat.le_refl _)),
        Option.some_bind, b64Encode_decode bs hb, Option.some_bind, hdec,
        Option.some_bind, hj]
  unfold decode_state
  rw [hp]

/-- C7 witness: a forged token, base64 of hand-written non-canonical
JSON never produced by encode_state, is accepted and parsed. -/
theorem C7_theorem_witness :
    decode_state (b64Encode (cp "\x7b\"client_id\": \"evil\", \"phone_number\": \"999\"\x7d")) =
      JVal.obj [(cp "client_id", JVal.str (cp "evil")),
                (cp "phone_number", JVal.str (cp "999"))] :=
  C7_theorem (cp "\x7b\"client_id\": \"evil\", \"phone_number\": \"999\"\x7d")
    (cp "\x7b\"client_id\": \"evil\", \"phone_number\": \"999\"\x7d")
    (JVal.obj [(cp "client_id", JVal.str (cp "evil")),
               (cp "phone_number", JVal.str (cp "999"))])
    (by decide) (by rfl) (by rfl)

/-- C8: on a callback that reaches the forwarding step (truthy code, a
state payload with nonempty string phone number and client id, token
endpoint answering 200 with an object carrying access_token and an
expires_in the payload sum accepts), a transport exception while posting
to the sink is downgraded to a failure verdict and the handler still
answers with a redirect to the phone-not-found terminal page, not a 5xx
error. -/
theorem C8_theorem (cfg : Config) (tr : HttpResp) (c : List Nat)
    (stq : Option (List Nat)) (kvs d : List (List Nat × JVal))
    (p w : List Nat) (a : JVal) (u : List Nat)
    (hc : c ≠ [])
    (hpay : callbackStatePayload stq = JVal.obj kvs)
    (hphone : dictGet kvs (cp "phone_number") = some (JVal.str p)) (hp : p ≠ [])
    (hcid : dictGet kvs (cp "client_id") = some (JVal.str w)) (hw : w ≠ [])
    (h200 : tr.status = 200)
    (hj : jsonLoads tr.text = some (JVal.obj d))
    (ha : dictGet d (cp "access_token") = some a)
    (hadd : addableToFloat ((dictGet d (cp "expires_in")).getD (JVal.int 3600)) = true)
    (hn8n : cfg.n8nUrl = some u) (hu : u ≠ []) :
    store_jobber_tokens_for_client cfg.n8nUrl PostResult.exn = false ∧
    (jobber_callback cfg tr PostResult.exn (some c) stq).result =
      HandlerResult.redirect 307 phoneNotFoundUrl ∧
    (jobber_callback cfg tr PostResult.exn (some c) stq).sinkForwards = 1 := by
  have hpt : truthyOpt (dictGet kvs (cp "phone_number")) = true := by
    rw [hphone]; exact truthyOpt_str p hp
  have hct : truthyOpt (dictGet kvs (cp "client_id")) = true := by
    rw [hcid]; exact truthyOpt_str w hw
  have hsf : store_jobber_tokens_for_client (some u) PostResult.exn = false := store_exn u hu
  refine ⟨by rw [hn8n]; exact hsf, ?_, ?_⟩ <;>
  · rw [callback_reaches_exchange cfg tr PostResult.exn c stq kvs hc hpay hpt hct,
        callbackExchange_200 cfg tr PostResult.exn c d h200 hj,
        exchangeWithData_token cfg PostResult.exn c d a ha hadd, hn8n, hsf]
    rfl

/-- C8 witness: the concrete fixture callback with a sink transport
exception. -/
theorem C8_theorem_witness :
    store_jobber_tokens_for_client cfgEx.n8nUrl PostResult.exn = false ∧
    (jobber_callback cfgEx tokRespEx PostResult.exn (some (cp "X"))
      (some stateEx)).result = HandlerResult.redirect 307 phoneNotFoundUrl ∧
    (jobber_callback cfgEx tokRespEx PostResult.exn (some (cp "X"))
      (some stateEx)).sinkForwards = 1 :=
  C8_theorem cfgEx tokRespEx (cp "X") (some stateEx)
    [(cp "client_id", JVal.str (cp "test_client_1")),
     (cp "phone_number", JVal.str (cp "12185551234")),
     (cp "ts", JVal.int 1700000000)]
    [(cp "access_token", JVal.str (cp "tok123")),
     (cp "refresh_token", JVal.str (cp "ref456")),
     (cp "expires_in", JVal.int 3600)]
    (cp "12185551234") (cp "test_client_1") (JVal.str (cp "tok123"))
    (cp "https://n8n.example.org/webhook/jobber-tokens")
    (by decide) rfl rfl (by decide) rfl (by decide) rfl rfl rfl rfl rfl (by decide)

/-- C9: a callback whose code query parameter is absent or empty
terminates with HTTP 400 Missing code before any token call or sink
forward. -/
theorem C9_theorem (cfg : Config) (tr : HttpResp) (sp : PostResult)
    (codeq : Option (List Nat)) (stq : Option (List Nat))
    (h : codeq = none ∨ codeq = some []) :
    jobber_callback cfg tr sp codeq stq =
      ⟨HandlerResult.httpError 400 (cp "Missing code"), [], 0⟩ := by
  rcases h with rfl | rfl
  · rfl
  · rw [jobber_callback_some, if_pos rfl]

/-- C9 witness: the missing-code case on the concrete fixture. -/
theorem C9_theorem_witness :
    jobber_callback cfgEx tokRespEx sinkOkEx none (some stateEx) =
      ⟨HandlerResult.httpError 400 (cp "Missing code"), [], 0⟩ :=
  C9_theorem cfgEx tokRespEx sinkOkEx none (some stateEx) (Or.inl rfl)

/-- C10: decode_state is total: whenever the decoding pipeline fails on
a token (non-base64 text, truncated base64, base64 of non-JSON bytes),
decode_state returns the empty dictionary, and the callback handler then
treats the request as identity-less, redirecting to the phone-required
page with no token call and no sink forward. -/
theorem C10_theorem (cfg : Config) (tr : HttpResp) (sp : PostResult)
    (c t : List Nat) (hc : c ≠ [])
    (hfail : decodeStatePipeline t = none) :
    decode_state t = JVal.obj [] ∧
    jobber_callback cfg tr sp (some c) (some t) =
      ⟨HandlerResult.redirect 307 phoneRequiredUrl, [], 0⟩ := by
  have hd : decode_state t = JVal.obj [] := by
    unfold decode_state
    rw [hfail]
  refine ⟨hd, ?_⟩
  have hpay : callbackStatePayload (some t) = JVal.obj [] := by
    show (if t = [] then JVal.obj [] else decode_state t) = JVal.obj []
    by_cases ht : t = []
    · rw [if_pos ht]
    · rw [if_neg ht, hd]
  exact callback_phoneRequired cfg tr sp c (some t) [] hc hpay rfl

/-- C10 witness: three failing token shapes, non-base64 text, truncated
base64, and base64 of non-JSON bytes, all yield the empty dictionary and
the phone-required redirect. -/
theorem C10_theorem_witness :
    (decode_state (cp "!!!not-base64!!!") = JVal.obj [] ∧
      jobber_callback cfgEx tokRespEx sinkOkEx (some (cp "X"))
        (some (cp "!!!not-base64!!!")) =
        ⟨HandlerResult.redirect 307 phoneRequiredUrl, [], 0⟩) ∧
    (decode_state (cp "eyJjb") = JVal.obj [] ∧
      jobber_callback cfgEx tokRespEx sinkOkEx (some (cp "X")) (some (cp "eyJjb")) =
        ⟨HandlerResult.redirect 307 phoneRequiredUrl, [], 0⟩) ∧
    (decode_state (b64Encode (cp "hello")) = JVal.obj [] ∧
      jobber_callback cfgEx tokRespEx sinkOkEx (some (cp "X"))
        (some (b64Encode (cp "hello"))) =
        ⟨HandlerResult.redirect 307 phoneRequiredUrl, [], 0⟩) :=
  ⟨C10_theorem cfgEx tokRespEx sinkOkEx (cp "X") (cp "!!!not-base64!!!")
     (by decide) (by rfl),
   C10_theorem cfgEx tokRespEx sinkOkEx (cp "X") (cp "eyJjb") (by decide) (by rfl),
   C10_theorem cfgEx tokRespEx sinkOkEx (cp "X") (b64Encode (cp "hello"))
     (by decide) (by rfl)⟩
